import Mathlib

/-!
# OCN Registry (`src/registry.ts`) — verification development

A shallow embedding of the OCN Registry TypeScript client facade
(`src/registry.ts`) together with models of the external library
functions it calls (`ethers.utils.getAddress`, `ethers.utils.toUtf8String`,
`web3-utils.toHex`, the WHATWG `URL` origin computation, and the
Keccak-256 hash on which the EIP-55 address checksum rests).

Components of the repository that are referenced by `registry.ts` but whose
source is not part of the repository snapshot (`src/lib/sign.ts`,
`src/types.ts`, `src/networks.ts`) are modelled from the specification and
are marked `Modelled from the spec:` in their doc comments.
-/

/-! ## Keccak-256

Model of the Keccak-256 hash (the pre-NIST padding variant used by
Ethereum, as implemented by the `js-sha3`/`ethers` libraries): 1600-bit
state as 25 lanes of 64 bits, rate 1088 bits (136 bytes), multi-rate
padding `0x01 … 0x80`, 24 rounds.  Lanes are `Nat` kept below `2^64`. -/

namespace Keccak

def mask64 : Nat := 2 ^ 64 - 1

/-- Left-rotation of a 64-bit lane. -/
def rotl (x n : Nat) : Nat :=
  ((x <<< (n % 64)) ||| (x >>> (64 - n % 64))) &&& mask64

/-- One step of the `rc` bit generator of the Keccak specification: the
LFSR with feedback polynomial `x^8 + x^6 + x^5 + x^4 + 1` over GF(2). -/
def lfsrStep (R : Nat) : Nat :=
  let R2 := R <<< 1
  if R2 &&& 0x100 ≠ 0 then R2 ^^^ 0x171 else R2

/-- Iterated LFSR. -/
def lfsrIter : Nat → Nat → Nat
  | 0, R => R
  | n + 1, R => lfsrIter n (lfsrStep R)

/-- The bit `rc(t)` of the Keccak specification. -/
def rcBit (t : Nat) : Nat :=
  if t % 255 = 0 then 1 else lfsrIter (t % 255) 1 &&& 1

/-- Round constant of round `i`: bit `rc(7 i + j)` placed at position
`2^j - 1`, for `j < 7`. -/
def roundConst (i : Nat) : Nat :=
  (List.range 7).foldl (fun acc j => acc ||| (rcBit (7 * i + j) <<< (2 ^ j - 1))) 0

/-- The 24 round constants of Keccak-f[1600], generated from the
specification's LFSR. -/
def RC : List Nat := (List.range 24).map roundConst

/-- Walk of the pi orbit of lane `(1, 0)` under `(x, y) ↦ (y, 2x + 3y)`:
pairs of lane position `x + 5 y` and rho rotation `(t+1)(t+2)/2 mod 64` at
orbit step `t`. -/
def rhoOrbitAux (fuel t x y : Nat) : List (Nat × Nat) :=
  match fuel with
  | 0 => []
  | f + 1 =>
    (x + 5 * y, (t + 1) * (t + 2) / 2 % 64) :: rhoOrbitAux f (t + 1) y ((2 * x + 3 * y) % 5)

/-- Rotation offsets of the rho step as an association list over lane
positions, zero at the origin lane. -/
def rhoAssoc : List (Nat × Nat) := (0, 0) :: rhoOrbitAux 24 0 1 0

/-- Rotation offset of the lane at position `i`. -/
def rhoOffOf (i : Nat) : Nat :=
  (((rhoAssoc.filter (fun p => p.1 = i)).head?).map (fun p => p.2)).getD 0

/-- Theta step: xor each lane with the parity of two neighbouring columns. -/
def theta (A : List Nat) : List Nat :=
  let C := (List.range 5).map fun x =>
    (A.getD x 0) ^^^ (A.getD (x + 5) 0) ^^^ (A.getD (x + 10) 0) ^^^
      (A.getD (x + 15) 0) ^^^ (A.getD (x + 20) 0)
  let D := (List.range 5).map fun x =>
    (C.getD ((x + 4) % 5) 0) ^^^ rotl (C.getD ((x + 1) % 5) 0) 1
  (List.range 25).map fun i => (A.getD i 0) ^^^ (D.getD (i % 5) 0)

/-- Rho and pi steps combined: lane `(x', y')` of the output is lane
`(x' + 3 y' mod 5, x')` of the input, rotated by its ρ offset. -/
def rhoPi (A : List Nat) : List Nat :=
  (List.range 25).map fun j =>
    let x := j % 5
    let y := j / 5
    let src := ((x + 3 * y) % 5) + 5 * x
    rotl (A.getD src 0) (rhoOffOf src)

/-- Chi step: nonlinear row mixing. -/
def chi (B : List Nat) : List Nat :=
  (List.range 25).map fun i =>
    let x := i % 5
    let y := i / 5
    (B.getD i 0) ^^^
      (((B.getD ((x + 1) % 5 + 5 * y) 0) ^^^ mask64) &&& (B.getD ((x + 2) % 5 + 5 * y) 0))

/-- One Keccak-f round: theta, rho, pi, chi, then iota (xor the round constant into lane 0). -/
def keccakRound (A : List Nat) (rc : Nat) : List Nat :=
  match chi (rhoPi (theta A)) with
  | [] => []
  | a0 :: rest => (a0 ^^^ rc) :: rest

/-- The full Keccak-f[1600] permutation (24 rounds). -/
def keccakF (A : List Nat) : List Nat := RC.foldl keccakRound A

/-- Multi-rate padding `0x01 0x00 … 0x80` (collapsing to `0x81` when a single
padding byte fits), to a multiple of the 136-byte rate. -/
def padInput (bytes : List Nat) : List Nat :=
  let padlen := 136 - bytes.length % 136
  if padlen = 1 then bytes ++ [0x81]
  else bytes ++ [0x01] ++ List.replicate (padlen - 2) 0 ++ [0x80]

/-- Assemble up to eight bytes into a little-endian 64-bit lane. -/
def bytesToLane (bs : List Nat) : Nat :=
  bs.foldr (fun b acc => acc * 256 + b) 0

/-- Xor one 136-byte block into the state and permute. -/
def absorbBlock (A : List Nat) (block : List Nat) : List Nat :=
  let lanes := (List.range 17).map fun i => bytesToLane ((block.drop (8 * i)).take 8)
  keccakF ((List.range 25).map fun i => (A.getD i 0) ^^^ (lanes.getD i 0))

/-- Absorb `nblocks` rate-sized blocks of the padded input. -/
def absorb (A : List Nat) (padded : List Nat) : Nat → List Nat
  | 0 => A
  | n + 1 => absorb (absorbBlock A (padded.take 136)) (padded.drop 136) n

/-- Keccak-256 of a byte sequence: 32 output bytes. -/
def keccak256Bytes (bytes : List Nat) : List Nat :=
  let padded := padInput bytes
  let A := absorb (List.replicate 25 0) padded (padded.length / 136)
  (List.range 32).map fun i => ((A.getD (i / 8) 0) >>> (8 * (i % 8))) % 256

/-- Two lowercase hex characters for one byte. -/
def byteToHexChars (b : Nat) : List Char :=
  [Nat.digitChar (b / 16 % 16), Nat.digitChar (b % 16)]

/-- Lowercase hex string of a byte sequence. -/
def bytesToHex (bs : List Nat) : String :=
  String.mk ((bs.map byteToHexChars).flatten)

/-- Keccak-256 of the UTF-16 code units of an ASCII string (as JS libraries
hash the ASCII bytes of hex-address strings), rendered as lowercase hex. -/
def keccak256OfAscii (s : String) : String :=
  bytesToHex (keccak256Bytes (s.data.map Char.toNat))

end Keccak


/-! ## JavaScript string primitives

ASCII fragments of the JavaScript string operations used by `registry.ts`
and the libraries it calls.  JS strings are sequences of UTF-16 code units;
for the Basic Multilingual Plane (which covers every string these claims
touch) a code unit is a code point, so Lean `Char` lists model them, with
`charCodeAt` as `Char.toNat`.  `toUpperCase`/`toLowerCase` are modelled on
their ASCII fragment of the Unicode simple case mapping. -/

namespace JS

def isAsciiDigit (c : Char) : Bool := 48 ≤ c.toNat && c.toNat ≤ 57

def isUpperAlpha (c : Char) : Bool := 65 ≤ c.toNat && c.toNat ≤ 90

def isLowerAlpha (c : Char) : Bool := 97 ≤ c.toNat && c.toNat ≤ 122

def isAlpha (c : Char) : Bool := isUpperAlpha c || isLowerAlpha c

def isAlphanum (c : Char) : Bool := isAsciiDigit c || isAlpha c

/-- Character class `[0-9a-fA-F]`. -/
def isHexDigit (c : Char) : Bool :=
  isAsciiDigit c || (97 ≤ c.toNat && c.toNat ≤ 102) || (65 ≤ c.toNat && c.toNat ≤ 70)

/-- Character class `[a-f]` (lowercase hex letters only). -/
def isLowerHexLetter (c : Char) : Bool := 97 ≤ c.toNat && c.toNat ≤ 102

/-- Character class `[A-F]` (uppercase hex letters only). -/
def isUpperHexLetter (c : Char) : Bool := 65 ≤ c.toNat && c.toNat ≤ 70

def toLowerChar (c : Char) : Char :=
  if isUpperAlpha c then Char.ofNat (c.toNat + 32) else c

def toUpperChar (c : Char) : Char :=
  if isLowerAlpha c then Char.ofNat (c.toNat - 32) else c

def toLower (s : String) : String := String.mk (s.data.map toLowerChar)

def toUpper (s : String) : String := String.mk (s.data.map toUpperChar)

/-- Numeric value of a hex digit (0 for other characters). -/
def hexVal (c : Char) : Nat :=
  if isAsciiDigit c then c.toNat - 48
  else if isLowerHexLetter c then c.toNat - 87
  else if isUpperHexLetter c then c.toNat - 55
  else 0

/-- Value of a string of hex digits (big-endian). -/
def hexToNat (cs : List Char) : Nat :=
  cs.foldl (fun acc c => acc * 16 + hexVal c) 0

/-- Value of a string of decimal digits (big-endian). -/
def decToNat (cs : List Char) : Nat :=
  cs.foldl (fun acc c => acc * 10 + (c.toNat - 48)) 0

/-- JS `String.prototype.length`: the number of UTF-16 code units (astral
code points count twice). -/
def jsLength (s : String) : Nat :=
  s.data.foldl (fun n c => n + if c.toNat ≥ 0x10000 then 2 else 1) 0

/-- ECMAScript `StrWhiteSpace` characters trimmed by `ToNumber` (the common
ones: ASCII whitespace, NBSP, BOM, and the line/paragraph separators). -/
def isJsWhite (c : Char) : Bool :=
  c.toNat = 0x20 || c.toNat = 0x9 || c.toNat = 0xA || c.toNat = 0xD ||
    c.toNat = 0xB || c.toNat = 0xC || c.toNat = 0xA0 || c.toNat = 0xFEFF ||
    c.toNat = 0x2028 || c.toNat = 0x2029

/-- Whitespace trimming on both ends, as `ToNumber` and `String.trim` do. -/
def jsTrim (cs : List Char) : List Char :=
  ((cs.dropWhile isJsWhite).reverse.dropWhile isJsWhite).reverse

/-- JS `String.prototype.startsWith`, via structural list recursion (the
core-library `String.startsWith` does not reduce inside the kernel). -/
def startsWith (s pre : String) : Bool := pre.data.isPrefixOf s.data

end JS

deriving instance DecidableEq for Except

/-! ## `ethers.utils.getAddress` and the EIP-55 checksum

Model of the ethers address utilities used by `Registry.verifyAddress`
(`ethers/utils/address`): a checksummed rendering driven by Keccak-256 of
the lowercase 40-hex-digit body, accepting either hex forms (with optional
`0x` prefix; a mixed-case body must match its checksum rendering) or ICAP
(`XE` + 2 IBAN check digits + 30/31 base-36 digits). -/

namespace Ethers

/-- The regex `^(0x)?[0-9a-fA-F]{40}$`: an optionally `0x`-prefixed
40-hex-digit string (the prefix is case-sensitive in the regex). -/
def isHex40 (s : String) : Bool :=
  let body := if JS.startsWith s "0x" then s.data.drop 2 else s.data
  body.length = 40 && body.all JS.isHexDigit

/-- The regex `([A-F].*[a-f])|([a-f].*[A-F])`: some uppercase hex letter
occurs before a lowercase one or vice versa — equivalently, the string
contains hex letters of both cases. -/
def mixedCaseHex (s : String) : Bool :=
  s.data.any JS.isUpperHexLetter && s.data.any JS.isLowerHexLetter

/-- EIP-55 checksum rendering of a `0x`-prefixed 40-hex-digit address:
hash the lowercase body's ASCII bytes with Keccak-256 and uppercase every
hex letter whose corresponding hash nibble is at least 8. -/
def checksumRender (address : String) : String :=
  let chars := (JS.toLower address).data.drop 2
  let hashed := Keccak.keccak256Bytes (chars.map Char.toNat)
  let out := (List.range 40).map fun i =>
    let c := chars.getD i '0'
    let nib := if i % 2 = 0 then (hashed.getD (i / 2) 0) / 16 else (hashed.getD (i / 2) 0) % 16
    if nib ≥ 8 then JS.toUpperChar c else c
  "0x" ++ String.mk out

/-- The guard regex of `ethers` `getChecksumAddress`,
`^0x[0-9A-Fa-f]{40}$` (the prefix is case-sensitive). -/
def isChecksumCandidate (s : String) : Bool :=
  match s.data with
  | c1 :: c2 :: body => c1 = '0' && c2 = 'x' && body.length = 40 && body.all JS.isHexDigit
  | _ => false

/-- Model of `ethers` `getChecksumAddress`: the `invalid address` throw on
anything but a `0x`-prefixed 40-hex-digit string, then the EIP-55
rendering.  The guard is reachable from the ICAP branch of `getAddress`,
whose base-36 payload can exceed 40 hex digits. -/
def getChecksumAddress (address : String) : Except String String :=
  if isChecksumCandidate address then Except.ok (checksumRender address)
  else Except.error "invalid address"

/-- The `0x`-normalised form `getAddress` computes for a bare 40-hex-digit
body before the checksum comparison. -/
def with0x (s : String) : String :=
  if JS.startsWith s "0x" then s else "0x" ++ s

/-- The ICAP shape regex `^XE[0-9]{2}[0-9A-Za-z]{30,31}$`. -/
def isIcapForm (s : String) : Bool :=
  match s.data with
  | 'X' :: 'E' :: d1 :: d2 :: rest =>
    JS.isAsciiDigit d1 && JS.isAsciiDigit d2 &&
      (rest.length = 30 || rest.length = 31) && rest.all JS.isAlphanum
  | _ => false

/-- IBAN letter expansion: digits stand for themselves, `A`–`Z` for 10–35;
the value of the expanded decimal string. -/
def ibanExpand (cs : List Char) : Nat :=
  cs.foldl (fun acc c =>
    if JS.isAsciiDigit c then acc * 10 + (c.toNat - 48) else acc * 100 + (c.toNat - 55)) 0

/-- IBAN check digits of an ICAP address (`ethers` `ibanChecksum`): move the
first four characters to the end, append `00`, expand letters, and take
`98 - value mod 97`, zero-padded to two digits.  The JS source reduces the
decimal expansion mod 97 in safe-integer-sized chunks; chunked reduction
computes exactly the value of the whole expansion mod 97, which is used
directly here. -/
def ibanChecksum (address : String) : String :=
  let a := (JS.toUpper address).data
  let n := ibanExpand (a.drop 4 ++ a.take 2 ++ ['0', '0'])
  let checksum := 98 - n % 97
  if checksum < 10 then "0" ++ toString checksum else toString checksum

/-- Value of a base-36 digit (`0`–`9`, `a`–`z`, `A`–`Z`). -/
def base36Val (c : Char) : Nat :=
  if JS.isAsciiDigit c then c.toNat - 48
  else if JS.isLowerAlpha c then c.toNat - 87
  else c.toNat - 55

def base36ToNat (cs : List Char) : Nat :=
  cs.foldl (fun acc c => acc * 36 + base36Val c) 0

/-- Lowercase hex rendering of a number, no prefix (`BN.toString(16)`). -/
def natToHexChars (n : Nat) : List Char := Nat.toDigits 16 n

/-- The base-36 payload of an ICAP string rendered as hex digits
(`BN(address.substring(4), 36).toString(16)`). -/
def icapHexOf (s : String) : List Char := natToHexChars (base36ToNat (s.data.drop 4))

/-- Model of `ethers.utils.getAddress`: the hex branch checks the mixed-case
checksum; the ICAP branch checks the IBAN check digits and converts the
base-36 payload to a zero-padded, checksummed hex address (a payload beyond
40 hex digits fails `getChecksumAddress`'s guard and raises its `invalid
address` throw). -/
def getAddress (address : String) : Except String String :=
  if isHex40 address then
    let addr := with0x address
    match getChecksumAddress addr with
    | Except.error e => Except.error e
    | Except.ok result =>
      if mixedCaseHex addr && result ≠ addr then
        Except.error "bad address checksum"
      else
        Except.ok result
  else if isIcapForm address then
    if String.mk ((address.data.drop 2).take 2) ≠ ibanChecksum address then
      Except.error "bad icap checksum"
    else
      let hex := icapHexOf address
      let padded := List.replicate (40 - hex.length) '0' ++ hex
      getChecksumAddress ("0x" ++ String.mk padded)
  else
    Except.error "invalid address"

end Ethers

/-! ## `ethers.utils.toUtf8String`

Hex-string to UTF-8 decoding as used by `Registry.toPartyDetails` on the
`bytes2`/`bytes3` fields of ledger responses: parse an even-length
`0x`-prefixed hex string into bytes, then decode them strictly as UTF-8,
raising an error on invalid sequences (ethers' default `ignoreErrors =
false`).  Code points are mapped to Lean `Char`s; the claims only exercise
scalar values. -/

namespace Ethers

/-- Byte list of an even-length `0x`-prefixed hex string (`arrayify`);
`none` models the `invalid arrayify value` throw. -/
def hexToBytes (s : String) : Option (List Nat) :=
  let body := s.data.drop 2
  if JS.startsWith s "0x" && body.all JS.isHexDigit && body.length % 2 = 0 then
    some ((List.range (body.length / 2)).map fun i =>
      JS.hexVal (body.getD (2 * i) '0') * 16 + JS.hexVal (body.getD (2 * i + 1) '0'))
  else
    none

/-- Bool test for a UTF-8 continuation byte `10xxxxxx`. -/
def isCont (b : Nat) : Bool := 0x80 ≤ b && b < 0xC0

/-- Strict UTF-8 decoding of a byte list: errors on unexpected continuation
bytes, invalid prefixes, truncated sequences, bad continuation bytes, and
overlong encodings. -/
def utf8Decode : List Nat → Except String (List Char)
  | [] => Except.ok []
  | b :: rest =>
    if b < 0x80 then
      (utf8Decode rest).map (fun cs => Char.ofNat b :: cs)
    else if b < 0xC0 then
      Except.error "unexpected continuation byte"
    else if b < 0xE0 then
      match rest with
      | b1 :: rest' =>
        if isCont b1 then
          let cp := (b - 0xC0) * 0x40 + (b1 - 0x80)
          if cp < 0x80 then Except.error "overlong"
          else (utf8Decode rest').map (fun cs => Char.ofNat cp :: cs)
        else Except.error "invalid continuation byte"
      | [] => Except.error "too short"
    else if b < 0xF0 then
      match rest with
      | b1 :: b2 :: rest' =>
        if isCont b1 && isCont b2 then
          let cp := (b - 0xE0) * 0x1000 + (b1 - 0x80) * 0x40 + (b2 - 0x80)
          if cp < 0x800 then Except.error "overlong"
          else (utf8Decode rest').map (fun cs => Char.ofNat cp :: cs)
        else Except.error "invalid continuation byte"
      | _ => Except.error "too short"
    else if b < 0xF8 then
      match rest with
      | b1 :: b2 :: b3 :: rest' =>
        if isCont b1 && isCont b2 && isCont b3 then
          let cp := (b - 0xF0) * 0x40000 + (b1 - 0x80) * 0x1000 +
            (b2 - 0x80) * 0x40 + (b3 - 0x80)
          if cp < 0x10000 then Except.error "overlong"
          else (utf8Decode rest').map (fun cs => Char.ofNat cp :: cs)
        else Except.error "invalid continuation byte"
      | _ => Except.error "too short"
    else
      Except.error "invalid prefix"

/-- Model of `ethers.utils.toUtf8String` on a hex-string argument. -/
def toUtf8String (s : String) : Except String String :=
  match hexToBytes s with
  | none => Except.error "invalid arrayify value"
  | some bytes => (utf8Decode bytes).map String.mk

end Ethers

/-! ## `web3-utils.toHex`

Model of the `toHex` dispatch of `web3-utils` (v1.x) restricted to string
arguments, which is how `Registry.toHex` invokes it: addresses are
lowercased and `0x`-prefixed verbatim; `0x`/`0X`-prefixed strings pass
through; strings that `ToNumber` evaluates to a finite number go through
`numberToHex` (the `number-to-bn` package, which throws on non-integer
numerics); all remaining strings are UTF-8 encoded with `utf8ToHex`. -/

namespace Web3

/-- UTF-8 encoding of one character. -/
def utf8EncodeChar (c : Char) : List Nat :=
  let n := c.toNat
  if n < 0x80 then [n]
  else if n < 0x800 then [0xC0 + n / 0x40, 0x80 + n % 0x40]
  else if n < 0x10000 then
    [0xE0 + n / 0x1000, 0x80 + n / 0x40 % 0x40, 0x80 + n % 0x40]
  else
    [0xF0 + n / 0x40000, 0x80 + n / 0x1000 % 0x40, 0x80 + n / 0x40 % 0x40, 0x80 + n % 0x40]

def utf8Encode (s : String) : List Nat :=
  (s.data.map utf8EncodeChar).flatten

/-- Model of `web3-utils` `utf8ToHex`: UTF-8 encode, trim zero bytes from
both ends (the `\u0000` padding strip), and render as `0x`-prefixed
lowercase hex. -/
def utf8ToHex (s : String) : String :=
  let bytes := utf8Encode s
  let trimmed := ((bytes.dropWhile (· = 0)).reverse.dropWhile (· = 0)).reverse
  "0x" ++ Keccak.bytesToHex trimmed

/-- The regex `^(-)?0x[0-9a-f]*$/i` (`isHexStrict`). -/
def isHexStrict (s : String) : Bool :=
  let cs := match s.data with
    | '-' :: rest => rest
    | cs => cs
  match cs with
  | '0' :: x :: rest => (x = 'x' || x = 'X') && rest.all JS.isHexDigit
  | _ => false

/-- The regex `^(0x|0X)?[0-9a-f]{40}$` (and its all-uppercase twin) used by
`web3-utils` `isAddress` to skip the checksum test for uniform-case bodies.
`which` selects the lowercase or uppercase variant. -/
def isUniformHex40 (s : String) (lower : Bool) : Bool :=
  let body := if JS.startsWith s "0x" || JS.startsWith s "0X" then s.data.drop 2 else s.data
  body.length = 40 &&
    body.all fun c =>
      JS.isAsciiDigit c || (if lower then JS.isLowerHexLetter c else JS.isUpperHexLetter c)

/-- Model of `web3-utils` `checkAddressChecksum`: keccak the lowercase body
and require uppercase exactly where the hash nibble exceeds 7. -/
def checkAddressChecksum (address : String) : Bool :=
  let a := if JS.startsWith address "0x" || JS.startsWith address "0X" then
      address.data.drop 2
    else address.data
  let hash := Keccak.keccak256Bytes ((a.map JS.toLowerChar).map Char.toNat)
  (List.range 40).all fun i =>
    let c := a.getD i '0'
    let nib := if i % 2 = 0 then (hash.getD (i / 2) 0) / 16 else (hash.getD (i / 2) 0) % 16
    if nib > 7 then JS.toUpperChar c = c else JS.toLowerChar c = c

/-- The regex `^(0x)?[0-9a-fA-F]{40}$/i`: with the `i` flag the optional
prefix also matches `0X`. -/
def isHex40CI (s : String) : Bool :=
  let body := if JS.startsWith s "0x" || JS.startsWith s "0X" then s.data.drop 2 else s.data
  body.length = 40 && body.all JS.isHexDigit

/-- Model of `web3-utils` `isAddress`: a case-insensitively hex 40-digit
body with optional prefix, accepted outright if uniform-case, otherwise
checksum-checked. -/
def isAddress (address : String) : Bool :=
  if !(isHex40CI address) then
    false
  else if isUniformHex40 address true || isUniformHex40 address false then
    true
  else
    checkAddressChecksum address

end Web3

/-! ### ECMAScript `ToNumber` on strings, and `number-to-bn`

`toHex` branches on the global `isFinite(value)`, which coerces its string
argument with `ToNumber`: trimmed whitespace, the empty string is 0, a
`StrNumericLiteral` is its value (`Infinity` is not finite), and anything
else is `NaN` (not finite).  `numberToHex` then converts the original
string with the `number-to-bn` package, which accepts only integer decimal
or hex shapes and throws otherwise. -/

namespace Web3

/-- Decimal mantissa shape `digits [. digits?] | . digits` (after the
optional sign has been removed). -/
def isDecMantissa (cs : List Char) : Bool :=
  let intPart := cs.takeWhile JS.isAsciiDigit
  match cs.dropWhile JS.isAsciiDigit with
  | [] => !intPart.isEmpty
  | '.' :: frac => (!intPart.isEmpty || !frac.isEmpty) && frac.all JS.isAsciiDigit
  | _ => false

/-- Exponent shape `[eE] sign? digits`. Returns true also for an absent
exponent (empty list). -/
def isOptExponent (cs : List Char) : Bool :=
  match cs with
  | [] => true
  | e :: rest =>
    let rest := match rest with
      | c :: r => if c = '+' || c = '-' then r else rest
      | [] => rest
    (e = 'e' || e = 'E') && !rest.isEmpty && rest.all JS.isAsciiDigit

/-- True when `ToNumber` maps the string to a finite number: empty/blank
strings give 0; otherwise a signed decimal literal (with optional fraction
and exponent) or an unsigned `0x`/`0b`/`0o` radix literal.  `Infinity`
shapes and everything else give `±∞` or `NaN`, which are not finite. -/
def isFiniteString (s : String) : Bool :=
  let t := JS.jsTrim s.data
  match t with
  | [] => true
  | _ =>
    let unsigned := match t with
      | c :: r => if c = '+' || c = '-' then r else t
      | [] => t
    let decimal :=
      isDecMantissa (unsigned.takeWhile fun c => c ≠ 'e' && c ≠ 'E') &&
        isOptExponent (unsigned.dropWhile fun c => c ≠ 'e' && c ≠ 'E')
    let radix := match t with
      | '0' :: x :: rest =>
        ((x = 'x' || x = 'X') && !rest.isEmpty && rest.all JS.isHexDigit) ||
          ((x = 'b' || x = 'B') && !rest.isEmpty && rest.all fun c => c = '0' || c = '1') ||
          ((x = 'o' || x = 'O') && !rest.isEmpty &&
            rest.all fun c => 48 ≤ c.toNat && c.toNat ≤ 55)
      | _ => false
    decimal || radix

/-- Model of the `number-to-bn` package on a string argument: lowercase and
trim; note a `0x`/`-0x` prefix; strip prefixes and an optional leading
minus; hex-looking arguments parse base 16, digit-only arguments parse
base 10, everything else throws (including the cases where `BN` itself
rejects stray characters). -/
def numberToBN (s : String) : Except String Int :=
  let f := JS.jsTrim (JS.toLower s).data
  let hexPrefixed := JS.startsWith (String.mk f) "0x" || JS.startsWith (String.mk f) "-0x"
  let stripped := if JS.startsWith (String.mk f) "0x" then f.drop 2 else f
  let (neg, arg0) := match stripped with
    | '-' :: r => (true, if JS.startsWith (String.mk r) "0x" then r.drop 2 else r)
    | _ => (false, stripped)
  let arg := if arg0.isEmpty then ['0'] else arg0
  let decMatch := arg.all JS.isAsciiDigit && !arg.isEmpty
  let hexMatch := arg.all JS.isHexDigit && !arg.isEmpty
  let sign : Int := if neg then -1 else 1
  if (!decMatch && hexMatch) || arg.any JS.isLowerHexLetter || (hexPrefixed && hexMatch) then
    if hexMatch then Except.ok (sign * (JS.hexToNat arg : Nat))
    else Except.error "invalid number value"
  else if decMatch && !hexPrefixed then
    Except.ok (sign * (JS.decToNat arg : Nat))
  else
    Except.error "invalid number value"

/-- Lowercase hex rendering of an integer in the `BN.toString(16)` shape,
`0x`-prefixed, negatives as `-0x…` (`web3-utils` `numberToHex`). -/
def numberToHex (value : String) : Except String String :=
  if !isFiniteString value && !isHexStrict value then
    Except.error "not a number"
  else
    match numberToBN value with
    | Except.error e => Except.error e
    | Except.ok n =>
      if n < 0 then Except.ok ("-0x" ++ String.mk (Ethers.natToHexChars n.natAbs))
      else Except.ok ("0x" ++ String.mk (Ethers.natToHexChars n.natAbs))

/-- Model of `web3-utils` `toHex` on a string argument. -/
def toHex (value : String) : Except String String :=
  if isAddress value then
    Except.ok ("0x" ++ String.mk (((JS.toLower value).data.drop
      (if JS.startsWith (JS.toLower value) "0x" then 2 else 0))))
  else if JS.startsWith value "-0x" || JS.startsWith value "-0X" then
    numberToHex value
  else if JS.startsWith value "0x" || JS.startsWith value "0X" then
    Except.ok value
  else if !isFiniteString value then
    Except.ok (utf8ToHex value)
  else
    numberToHex value

end Web3

/-! ## WHATWG `URL` origin

Model of the fragment of the WHATWG URL parser that `Registry.setNode`
exercises through Node's `url.URL`: scheme parsing, the special-scheme
authority (any run of slashes, optional userinfo, host, optional port with
default-port elision), and the `origin` getter, which is
`scheme://host[:port]` for the special network schemes and the literal
string `"null"` for opaque origins.  IDNA, percent-decoding and IPv6 hosts
are outside the modelled fragment; hosts are restricted to simple ASCII
names. -/

namespace JSURL

/-- The special network schemes and their default ports (`file`, whose
origin is opaque, is handled with the non-special schemes). -/
def specialSchemes : List (String × Nat) :=
  [("http", 80), ("https", 443), ("ws", 80), ("wss", 443), ("ftp", 21)]

structure URLRec where
  scheme : String
  host : String
  port : Option Nat
  special : Bool
deriving DecidableEq

def isSchemeChar (c : Char) : Bool :=
  JS.isAlphanum c || c = '+' || c = '-' || c = '.'

def isHostChar (c : Char) : Bool :=
  JS.isAlphanum c || c = '.' || c = '-' || c = '_'

/-- Parse a URL string far enough to expose its origin; `none` models the
`TypeError` thrown by the `URL` constructor on invalid input. -/
def parse (input : String) : Option URLRec :=
  let cs := ((input.data.dropWhile (fun c => c.toNat ≤ 0x20)).reverse.dropWhile
    (fun c => c.toNat ≤ 0x20)).reverse
  let schemeChars := cs.takeWhile (fun c => c ≠ ':')
  let afterScheme := (cs.dropWhile (fun c => c ≠ ':')).drop 1
  if schemeChars.length = cs.length then none  -- no ':' at all
  else if schemeChars.isEmpty || !(JS.isAlpha (schemeChars.getD 0 ' ')) ||
      !(schemeChars.all isSchemeChar) then none
  else
    let scheme := String.mk (schemeChars.map JS.toLowerChar)
    match (specialSchemes.filter (fun p => p.1 = scheme)).head? with
    | some (_, defaultPort) =>
      let afterSlashes := afterScheme.dropWhile (fun c => c = '/' || c = '\\')
      let authority := afterSlashes.takeWhile
        (fun c => c ≠ '/' && c ≠ '?' && c ≠ '#' && c ≠ '\\')
      let hostPort :=
        if authority.contains '@' then (authority.reverse.takeWhile (fun c => c ≠ '@')).reverse
        else authority
      let hostChars :=
        if hostPort.contains ':' then hostPort.takeWhile (fun c => c ≠ ':') else hostPort
      let portChars :=
        if hostPort.contains ':' then (hostPort.dropWhile (fun c => c ≠ ':')).drop 1 else []
      if hostChars.isEmpty || !(hostChars.all isHostChar) then none
      else if !(portChars.all JS.isAsciiDigit) then none
      else if portChars.isEmpty then
        some ⟨scheme, String.mk (hostChars.map JS.toLowerChar), none, true⟩
      else
        let p := JS.decToNat portChars
        if p > 65535 then none
        else if p = defaultPort then
          some ⟨scheme, String.mk (hostChars.map JS.toLowerChar), none, true⟩
        else
          some ⟨scheme, String.mk (hostChars.map JS.toLowerChar), some p, true⟩
    | none => some ⟨scheme, "", none, false⟩

/-- The `URL.prototype.origin` getter on a parsed record. -/
def originOf (u : URLRec) : String :=
  if u.special then
    u.scheme ++ "://" ++ u.host ++
      (match u.port with
       | some p => ":" ++ toString p
       | none => "")
  else "null"

/-- Origin of a URL string, `none` when the constructor would throw. -/
def origin (input : String) : Option String := (parse input).map originOf

end JSURL

/-! ## The parts of the repository outside the snapshot, modelled from the spec

`registry.ts` imports `./lib/sign`, `./types` and `./networks`, none of
which are in the source snapshot; the definitions in this section are
modelled from the specification (§3, §4.1–4.5) rather than translated from
source, and the theorems that depend on them say so. -/

/-- Modelled from the spec: the secp256k1 group order used to bound valid
private keys (§4.3's "fails with `SigningFailure` if the supplied key
material is malformed"; `ethers.Wallet` rejects keys that are not 32 bytes
or are out of range). -/
def secpOrder : Nat :=
  0xFFFFFFFFFFFFFFFFFFFFFFFFFFFFFFFEBAAEDCE6AF48A03BBFD25E8CD0364141

/-- Modelled from the spec: well-formed private-key material — a
`0x`-prefixed 32-byte hex scalar in the valid secp256k1 range. -/
def isValidPrivateKey (k : String) : Bool :=
  JS.startsWith k "0x" && (k.data.drop 2).length = 64 &&
    (k.data.drop 2).all JS.isHexDigit &&
    0 < JS.hexToNat (k.data.drop 2) && JS.hexToNat (k.data.drop 2) < secpOrder

/-- Modelled from the spec: the address derivation of §4.3 ("an address
matching the key's public address") — a deterministic map from key material
to a 20-byte address rendering, realised here by truncating the Keccak-256
hash of the key string; elliptic-curve public-key derivation itself is
external to the repository. -/
def addressOf (key : String) : String :=
  "0x" ++ String.mk ((Keccak.keccak256OfAscii key).data.take 40)

/-- Modelled from the spec: an `ethers.Wallet` holding signing key
material. -/
structure Wallet where
  key : String
deriving DecidableEq

/-- The address of a wallet's key. -/
def Wallet.address (w : Wallet) : String := addressOf w.key

/-- A `Signature` as in §3: recovery id `v` and two 32-byte components. -/
structure Signature where
  v : Nat
  r : String
  s : String
deriving DecidableEq

/-- The zero-address absence sentinel of §3. -/
def zeroAddress : String := "0x0000000000000000000000000000000000000000"

/-- Modelled from the spec: the operation kinds of the delegated protocol
(§4.5). -/
inductive OpKind
  | setNode
  | deleteNode
  | setParty
  | deleteParty
  | setPartyModules
deriving DecidableEq

/-- Leading discriminant of each operation kind (§4.1: "including the
operation kind as a leading discriminant in the encoding"). -/
def OpKind.tag : OpKind → String
  | .setNode => "SetNode"
  | .deleteNode => "DeleteNode"
  | .setParty => "SetParty"
  | .deleteParty => "DeleteParty"
  | .setPartyModules => "SetPartyModules"

/-- Modelled from the spec: the canonical encoder of §4.1 — the kind
discriminant followed by the ordered arguments, position-separated. -/
def encodeOp (kind : OpKind) (args : List String) : String :=
  String.intercalate "|" (kind.tag :: args)

/-- Modelled from the spec: the digest function of §4.2 — Keccak-256 of the
encoded payload, as a fixed-size 32-byte digest. -/
def digestOf (payload : String) : String :=
  "0x" ++ Keccak.bytesToHex (Keccak.keccak256Bytes (Web3.utf8Encode payload))

/-- Modelled from the spec: the Signer of §4.3 — an abstract recoverable
signature over a digest, binding the digest and the signer's address so
that the Verifier can re-derive the address from signature and digest
alone. -/
def signDigest (d : String) (w : Wallet) : Signature :=
  { v := 27, r := d, s := w.address }

/-- Modelled from the spec: the Verifier of §4.4 — recover the address that
produced the signature over the given digest; a signature over a different
digest recovers the zero address. -/
def recover (d : String) (sig : Signature) : String :=
  if sig.r = d && sig.v = 27 then sig.s else zeroAddress

/-- Modelled from the spec: the checked form of the Verifier (§4.4) — with
a claimed address supplied, assert `recovered == claimed`, failing with
`SignatureMismatch` otherwise. -/
def recoverChecked (d : String) (sig : Signature) (claimed : String) : Except String String :=
  if recover d sig = claimed then Except.ok (recover d sig)
  else Except.error "SignatureMismatch"

/-! Modelled from the spec: the operation builders of `src/lib/sign.ts`
(§4.5) — each binds its kind discriminant into the encoding, digests, and
signs with the authorising party's wallet. -/
namespace Sign

def setNodeRaw (domain : String) (wallet : Wallet) : Signature :=
  signDigest (digestOf (encodeOp .setNode [domain])) wallet

def deleteNodeRaw (wallet : Wallet) : Signature :=
  signDigest (digestOf (encodeOp .deleteNode [])) wallet

def setPartyRaw (countryCode partyId : String) (roles : List Nat) (operator : String)
    (wallet : Wallet) : Signature :=
  signDigest
    (digestOf (encodeOp .setParty
      ([countryCode, partyId, String.intercalate "," (roles.map toString), operator])))
    wallet

def setPartyModulesRaw (sender receiver : List Nat) (wallet : Wallet) : Signature :=
  signDigest
    (digestOf (encodeOp .setPartyModules
      [String.intercalate "," (sender.map toString),
       String.intercalate "," (receiver.map toString)]))
    wallet

def deletePartyRaw (wallet : Wallet) : Signature :=
  signDigest (digestOf (encodeOp .deleteParty [])) wallet

end Sign

/-! ## Data model of `src/types.ts`, modelled from the spec -/

/-- Modelled from the spec: the closed `Role` enumeration (§3: "e.g., CPO,
EMSP, HUB, etc."), stored as small integer indices; the TypeScript numeric
enum's reverse lookup `Role[index]` yields the name, or `undefined` when
the index is out of range.  The claims quantify over indices and never
depend on the particular names. -/
def roleNames : List String := ["CPO", "EMSP", "HUB", "NAP", "NSP", "OTHER", "SCSP"]

def roleLookup (i : Nat) : Option String := roleNames.get? i

/-- Modelled from the spec: the closed `Module` capability enumeration
(§3), with the standard OCPI module identifiers; reverse lookup as for
`Role`. -/
def moduleNames : List String :=
  ["cdrs", "chargingprofiles", "commands", "locations", "sessions", "tariffs", "tokens"]

def moduleLookup (i : Nat) : Option String := moduleNames.get? i

/-! ## The `Registry` facade (`src/registry.ts`) -/

/-- The error kinds a facade call can raise before or instead of a
transport interaction, mirroring the `throw` sites of `registry.ts` and the
library calls it makes. -/
inductive RegError
  | notWritable                               -- "No signer provided. Unable to send transaction."
  | invalidStringLen (wanted : Nat) (got : String)  -- "Invalid string length. …"
  | invalidAddress (got : String)             -- "Invalid address. Expected Ethereum address, …"
  | invalidUrl (got : String)                 -- TypeError from `new URL(domain)`
  | signingFailure (key : String)             -- `ethers.Wallet` invalid private key
  | utf8Error (msg : String)                  -- `ethers.utils.toUtf8String` decode failure
  | toHexError (msg : String)                 -- `web3-utils` toHex/numberToHex throw
deriving DecidableEq

/-- Node listing (`types.Node`): operator address and url. -/
structure NodeRec where
  operator : String
  url : String
deriving DecidableEq

/-- The `modules` component of `PartyDetails`; entries are the results of
the reverse enum lookups, `none` for out-of-range indices. -/
structure ModulesRec where
  sender : List (Option String)
  receiver : List (Option String)
deriving DecidableEq

/-- The `types.PartyDetails` shape as constructed by
`Registry.toPartyDetails`. -/
structure PartyDetails where
  countryCode : String
  partyId : String
  address : String
  roles : List (Option String)
  modules : ModulesRec
  node : NodeRec
deriving DecidableEq

/-- The merged object `Object.assign({...}, details)` handed to
`toPartyDetails`: the party address plus the ledger response fields. -/
structure PartyInput where
  partyAddress : String
  countryCode : String
  partyId : String
  roles : List Nat
  modulesSender : List Nat
  modulesReceiver : List Nat
  operatorAddress : String
  operatorDomain : String
deriving DecidableEq

/-- Ledger response of `getPartyDetailsByAddress`: the fields
`toPartyDetails` reads that are not supplied by the `Object.assign`
merge (which adds `partyAddress`). -/
structure LedgerPartyByAddress where
  countryCode : String
  partyId : String
  roles : List Nat
  modulesSender : List Nat
  modulesReceiver : List Nat
  operatorAddress : String
  operatorDomain : String
deriving DecidableEq

/-- Ledger response of `getPartyDetailsByOcpi` (the merge adds
`countryCode` and `partyId`). -/
structure LedgerPartyByOcpi where
  partyAddress : String
  roles : List Nat
  modulesSender : List Nat
  modulesReceiver : List Nat
  operatorAddress : String
  operatorDomain : String
deriving DecidableEq

/-- The read side of the registry contract, §6's read transport: an opaque
assignment of responses to queries. -/
structure Ledger where
  getNode : String → String
  getNodeOperators : List String
  getPartyDetailsByAddress : String → LedgerPartyByAddress
  getPartyDetailsByOcpi : String → String → LedgerPartyByOcpi
  getParties : List String

/-- One call reaching the contract (read query or submitted transaction);
facade results carry the list of calls made, so "before any network
interaction" is "with an empty call list". -/
inductive ContractCall
  | getNode (operator : String)
  | getNodeOperators
  | getPartyDetailsByAddress (address : String)
  | getPartyDetailsByOcpi (countryCode partyId : String)
  | getParties
  | setNode (url : String)
  | setNodeRaw (signer url : String) (v : Nat) (r s : String)
  | deleteNode
  | deleteNodeRaw (signer : String) (v : Nat) (r s : String)
  | setParty (countryCode partyId : String) (roles : List Nat) (operator : String)
  | setPartyRaw (signer countryCode partyId : String) (roles : List Nat) (operator : String)
      (v : Nat) (r s : String)
  | setPartyModules (sender receiver : List Nat)
  | setPartyModulesRaw (signer : String) (sender receiver : List Nat) (v : Nat) (r s : String)
  | deleteParty
  | deletePartyRaw (signer : String) (v : Nat) (r s : String)
deriving DecidableEq

/-- Outcome of a facade call: the contract calls that were made, in order,
and the returned value or raised error. -/
structure RunResult (α : Type) where
  calls : List ContractCall
  result : Except RegError α
deriving DecidableEq

/-- The facade state: read-only (`"r"`) or read-write (`"r+w"`) mode, and
the spender wallet when one was configured.  The network/environment
configuration selects transport endpoints only and is not part of the
model. -/
structure Registry where
  mode : String
  wallet : Option Wallet
deriving DecidableEq

/-- Model of the constructor: `new ethers.Wallet(signer, …)` rejects
malformed key material; a missing (or empty, hence falsy) signer leaves the
facade in read-only mode. -/
def Registry.new (signer : Option String) : Except RegError Registry :=
  match signer with
  | some s =>
    if s ≠ "" then
      if isValidPrivateKey s then Except.ok { mode := "r+w", wallet := some ⟨s⟩ }
      else Except.error (.signingFailure s)
    else Except.ok { mode := "r", wallet := none }
  | none => Except.ok { mode := "r", wallet := none }

/-- Model of `new ethers.Wallet(signer)` inside the raw operations. -/
def Wallet.create (key : String) : Except RegError Wallet :=
  if isValidPrivateKey key then Except.ok ⟨key⟩ else Except.error (.signingFailure key)

def Registry.verifyStringLen (str : String) (len : Nat) : Except RegError Unit :=
  if JS.jsLength str ≠ len then Except.error (.invalidStringLen len str) else Except.ok ()

def Registry.verifyAddress (address : String) : Except RegError Unit :=
  match Ethers.getAddress address with
  | Except.ok _ => Except.ok ()
  | Except.error _ => Except.error (.invalidAddress address)

def Registry.verifyWritable (reg : Registry) : Except RegError Unit :=
  if reg.mode ≠ "r+w" then Except.error .notWritable else Except.ok ()

def Registry.toHex (str : String) : Except RegError String :=
  match Web3.toHex (JS.toUpper str) with
  | Except.ok h => Except.ok h
  | Except.error e => Except.error (.toHexError e)

/-- Model of `Registry.toPartyDetails`: decode the hex identifier fields
(`ethers.utils.toUtf8String`, whose failure aborts the call), map the enum
indices through the reverse lookups, and repackage.  The `countryCode`
field is decoded first, as in the object literal. -/
def Registry.toPartyDetails (input : PartyInput) : Except RegError PartyDetails :=
  match Ethers.toUtf8String input.countryCode with
  | Except.error e => Except.error (.utf8Error e)
  | Except.ok cc =>
    match Ethers.toUtf8String input.partyId with
    | Except.error e => Except.error (.utf8Error e)
    | Except.ok pid =>
      Except.ok
        { countryCode := cc
          partyId := pid
          address := input.partyAddress
          roles := input.roles.map roleLookup
          modules :=
            { sender := input.modulesSender.map moduleLookup
              receiver := input.modulesReceiver.map moduleLookup }
          node :=
            { operator := input.operatorAddress
              url := input.operatorDomain } }

/-- The `Object.assign({ partyAddress: address }, details)` merge of
`getPartyByAddress` and the `getAllParties` loop. -/
def partyInputByAddress (address : String) (d : LedgerPartyByAddress) : PartyInput :=
  ⟨address, d.countryCode, d.partyId, d.roles, d.modulesSender, d.modulesReceiver,
    d.operatorAddress, d.operatorDomain⟩

/-- The `Object.assign({ countryCode: country, partyId: id }, details)`
merge of `getPartyByOcpi`. -/
def partyInputByOcpi (countryCode partyId : String) (d : LedgerPartyByOcpi) : PartyInput :=
  ⟨d.partyAddress, countryCode, partyId, d.roles, d.modulesSender, d.modulesReceiver,
    d.operatorAddress, d.operatorDomain⟩

/-- `getNode`: validate the operator address, then query; an empty (falsy)
response becomes `undefined`. -/
def Registry.getNode (reg : Registry) (L : Ledger) (operator : String) :
    RunResult (Option String) :=
  match Registry.verifyAddress operator with
  | Except.error e => ⟨[], Except.error e⟩
  | Except.ok _ =>
    let node := L.getNode operator
    ⟨[.getNode operator], Except.ok (if node ≠ "" then some node else none)⟩

/-- `getAllNodes`: list the operators, query each, and keep the truthy
urls. -/
def Registry.getAllNodes (reg : Registry) (L : Ledger) : RunResult (List NodeRec) :=
  let operators := L.getNodeOperators
  ⟨.getNodeOperators :: operators.map (.getNode ·),
    Except.ok (operators.filterMap fun op =>
      let url := L.getNode op
      if url ≠ "" then some ⟨op, url⟩ else none)⟩

/-- `setNode`: writability check, URL normalisation to the origin, then the
direct transaction. -/
def Registry.setNode (reg : Registry) (domain : String) : RunResult Unit :=
  match reg.verifyWritable with
  | Except.error e => ⟨[], Except.error e⟩
  | Except.ok _ =>
    match JSURL.origin domain with
    | none => ⟨[], Except.error (.invalidUrl domain)⟩
    | some origin => ⟨[.setNode origin], Except.ok ()⟩

/-- `setNodeRaw`: writability check, wallet from the supplied key, detached
signature, then the raw transaction carrying the wallet's address as the
claimed signer and the domain argument exactly as given. -/
def Registry.setNodeRaw (reg : Registry) (domain signer : String) : RunResult Unit :=
  match reg.verifyWritable with
  | Except.error e => ⟨[], Except.error e⟩
  | Except.ok _ =>
    match Wallet.create signer with
    | Except.error e => ⟨[], Except.error e⟩
    | Except.ok w =>
      let sig := Sign.setNodeRaw domain w
      ⟨[.setNodeRaw w.address domain sig.v sig.r sig.s], Except.ok ()⟩

/-- `deleteNode`: writability check, then the direct transaction. -/
def Registry.deleteNode (reg : Registry) : RunResult Unit :=
  match reg.verifyWritable with
  | Except.error e => ⟨[], Except.error e⟩
  | Except.ok _ => ⟨[.deleteNode], Except.ok ()⟩

/-- `deleteNodeRaw`: writability check, wallet, signature, raw
transaction. -/
def Registry.deleteNodeRaw (reg : Registry) (signer : String) : RunResult Unit :=
  match reg.verifyWritable with
  | Except.error e => ⟨[], Except.error e⟩
  | Except.ok _ =>
    match Wallet.create signer with
    | Except.error e => ⟨[], Except.error e⟩
    | Except.ok w =>
      let sig := Sign.deleteNodeRaw w
      ⟨[.deleteNodeRaw w.address sig.v sig.r sig.s], Except.ok ()⟩

/-- `getPartyByAddress`: query (no validation of the address argument),
merge in the party address, translate, and apply the zero-address absence
check to the translated operator. -/
def Registry.getPartyByAddress (reg : Registry) (L : Ledger) (address : String) :
    RunResult (Option PartyDetails) :=
  let d := L.getPartyDetailsByAddress address
  match Registry.toPartyDetails (partyInputByAddress address d) with
  | Except.error e => ⟨[.getPartyDetailsByAddress address], Except.error e⟩
  | Except.ok result =>
    ⟨[.getPartyDetailsByAddress address],
      Except.ok (if result.node.operator ≠ zeroAddress then some result else none)⟩

/-- `getPartyByOcpi`: length checks, hex-encode the identifiers, query,
merge the encoded identifiers back in, translate, zero-address check. -/
def Registry.getPartyByOcpi (reg : Registry) (L : Ledger) (countryCode partyId : String) :
    RunResult (Option PartyDetails) :=
  match Registry.verifyStringLen countryCode 2 with
  | Except.error e => ⟨[], Except.error e⟩
  | Except.ok _ =>
    match Registry.verifyStringLen partyId 3 with
    | Except.error e => ⟨[], Except.error e⟩
    | Except.ok _ =>
      match Registry.toHex countryCode with
      | Except.error e => ⟨[], Except.error e⟩
      | Except.ok country =>
        match Registry.toHex partyId with
        | Except.error e => ⟨[], Except.error e⟩
        | Except.ok pid =>
          let d := L.getPartyDetailsByOcpi country pid
          match Registry.toPartyDetails (partyInputByOcpi country pid d) with
          | Except.error e => ⟨[.getPartyDetailsByOcpi country pid], Except.error e⟩
          | Except.ok result =>
            ⟨[.getPartyDetailsByOcpi country pid],
              Except.ok (if result.node.operator ≠ zeroAddress then some result else none)⟩

/-- Loop body of `getAllParties`: query each party address in turn,
skipping zero-operator responses before translating (a translation error
aborts the loop). -/
def Registry.getAllPartiesAux (L : Ledger) :
    List String → List ContractCall × Except RegError (List PartyDetails)
  | [] => ([], Except.ok [])
  | a :: rest =>
    let d := L.getPartyDetailsByAddress a
    if d.operatorAddress ≠ zeroAddress then
      match Registry.toPartyDetails (partyInputByAddress a d) with
      | Except.error e => ([.getPartyDetailsByAddress a], Except.error e)
      | Except.ok pd =>
        (.getPartyDetailsByAddress a :: (Registry.getAllPartiesAux L rest).1,
          (Registry.getAllPartiesAux L rest).2.map (pd :: ·))
    else
      (.getPartyDetailsByAddress a :: (Registry.getAllPartiesAux L rest).1,
        (Registry.getAllPartiesAux L rest).2)

/-- `getAllParties`: list the party addresses and run the loop. -/
def Registry.getAllParties (reg : Registry) (L : Ledger) : RunResult (List PartyDetails) :=
  ⟨.getParties :: (Registry.getAllPartiesAux L L.getParties).1,
    (Registry.getAllPartiesAux L L.getParties).2⟩

/-- `setParty`: writability and argument validation, then the direct
transaction with hex-encoded upper-cased identifiers. -/
def Registry.setParty (reg : Registry) (countryCode partyId : String) (roles : List Nat)
    (operator : String) : RunResult Unit :=
  match reg.verifyWritable with
  | Except.error e => ⟨[], Except.error e⟩
  | Except.ok _ =>
    match Registry.verifyStringLen countryCode 2 with
    | Except.error e => ⟨[], Except.error e⟩
    | Except.ok _ =>
      match Registry.verifyStringLen partyId 3 with
      | Except.error e => ⟨[], Except.error e⟩
      | Except.ok _ =>
        match Registry.verifyAddress operator with
        | Except.error e => ⟨[], Except.error e⟩
        | Except.ok _ =>
          match Registry.toHex countryCode with
          | Except.error e => ⟨[], Except.error e⟩
          | Except.ok country =>
            match Registry.toHex partyId with
            | Except.error e => ⟨[], Except.error e⟩
            | Except.ok pid => ⟨[.setParty country pid roles operator], Except.ok ()⟩

/-- `setPartyRaw`: validation, hex encoding, wallet, signature, raw
transaction with the wallet's address as the claimed signer. -/
def Registry.setPartyRaw (reg : Registry) (countryCode partyId : String) (roles : List Nat)
    (operator signer : String) : RunResult Unit :=
  match reg.verifyWritable with
  | Except.error e => ⟨[], Except.error e⟩
  | Except.ok _ =>
    match Registry.verifyStringLen countryCode 2 with
    | Except.error e => ⟨[], Except.error e⟩
    | Except.ok _ =>
      match Registry.verifyStringLen partyId 3 with
      | Except.error e => ⟨[], Except.error e⟩
      | Except.ok _ =>
        match Registry.verifyAddress operator with
        | Except.error e => ⟨[], Except.error e⟩
        | Except.ok _ =>
          match Registry.toHex countryCode with
          | Except.error e => ⟨[], Except.error e⟩
          | Except.ok country =>
            match Registry.toHex partyId with
            | Except.error e => ⟨[], Except.error e⟩
            | Except.ok pid =>
              match Wallet.create signer with
              | Except.error e => ⟨[], Except.error e⟩
              | Except.ok w =>
                let sig := Sign.setPartyRaw country pid roles operator w
                ⟨[.setPartyRaw w.address country pid roles operator sig.v sig.r sig.s],
                  Except.ok ()⟩

/-- `setPartyModules`: writability check, then the direct transaction. -/
def Registry.setPartyModules (reg : Registry) (sender receiver : List Nat) : RunResult Unit :=
  match reg.verifyWritable with
  | Except.error e => ⟨[], Except.error e⟩
  | Except.ok _ => ⟨[.setPartyModules sender receiver], Except.ok ()⟩

/-- `setPartyModulesRaw`: writability check, wallet, signature, raw
transaction. -/
def Registry.setPartyModulesRaw (reg : Registry) (sender receiver : List Nat)
    (signer : String) : RunResult Unit :=
  match reg.verifyWritable with
  | Except.error e => ⟨[], Except.error e⟩
  | Except.ok _ =>
    match Wallet.create signer with
    | Except.error e => ⟨[], Except.error e⟩
    | Except.ok w =>
      let sig := Sign.setPartyModulesRaw sender receiver w
      ⟨[.setPartyModulesRaw w.address sender receiver sig.v sig.r sig.s], Except.ok ()⟩

/-- `deleteParty`: writability check, then the direct transaction. -/
def Registry.deleteParty (reg : Registry) : RunResult Unit :=
  match reg.verifyWritable with
  | Except.error e => ⟨[], Except.error e⟩
  | Except.ok _ => ⟨[.deleteParty], Except.ok ()⟩

/-- `deletePartyRaw`: writability check, wallet, signature, raw
transaction. -/
def Registry.deletePartyRaw (reg : Registry) (signer : String) : RunResult Unit :=
  match reg.verifyWritable with
  | Except.error e => ⟨[], Except.error e⟩
  | Except.ok _ =>
    match Wallet.create signer with
    | Except.error e => ⟨[], Except.error e⟩
    | Except.ok w =>
      let sig := Sign.deletePartyRaw w
      ⟨[.deletePartyRaw w.address sig.v sig.r sig.s], Except.ok ()⟩

/-- The validation error kinds named by the fail-fast property (§7): mode,
string length, and address validity. -/
def RegError.isValidation : RegError → Bool
  | .notWritable => true
  | .invalidStringLen _ _ => true
  | .invalidAddress _ => true
  | _ => false

/-! ## Test fixtures

Concrete ledgers and registries used by the witness theorems. -/

/-- A well-formed ledger response: `bytes2`/`bytes3` identifier fields in
hex, enum indices, a nonzero operator. -/
def testParty : LedgerPartyByAddress :=
  ⟨"0x4445", "0x414243", [0], [1], [2],
    "0x9bC1169Ca09555bf2721A5C9eC6D69c8073bfeB4", "https://node.ocn.org"⟩

/-- A response with the zero-address absence sentinel. -/
def testPartyZero : LedgerPartyByAddress :=
  ⟨"0x4445", "0x414243", [0], [1], [2], zeroAddress, ""⟩

/-- A zero-operator response whose `countryCode` bytes are not valid
UTF-8. -/
def testPartyZeroBad : LedgerPartyByAddress :=
  ⟨"0xff", "0x414243", [0], [1], [2], zeroAddress, ""⟩

def testPartyOcpi : LedgerPartyByOcpi :=
  ⟨"0x0123456789012345678901234567890123456789", [0], [1], [2],
    "0x9bC1169Ca09555bf2721A5C9eC6D69c8073bfeB4", "https://node.ocn.org"⟩

def testLedger : Ledger :=
  { getNode := fun _ => "https://node.ocn.org"
    getNodeOperators := ["0x9bC1169Ca09555bf2721A5C9eC6D69c8073bfeB4"]
    getPartyDetailsByAddress := fun _ => testParty
    getPartyDetailsByOcpi := fun _ _ => testPartyOcpi
    getParties := ["0x0123456789012345678901234567890123456789"] }

/-- A ledger whose party responses carry the zero-address sentinel with an
undecodable `countryCode`. -/
def testLedgerZeroBad : Ledger :=
  { testLedger with getPartyDetailsByAddress := fun _ => testPartyZeroBad }

/-- A ledger whose party responses carry the zero-address sentinel with
well-formed fields. -/
def testLedgerZero : Ledger :=
  { testLedger with getPartyDetailsByAddress := fun _ => testPartyZero }

/-- A valid private-key scalar. -/
def testKey : String :=
  "0x0000000000000000000000000000000000000000000000000000000000000001"

/-- A second, distinct valid private-key scalar. -/
def testKey2 : String :=
  "0x0000000000000000000000000000000000000000000000000000000000000002"

/-- A writable registry whose spender wallet holds `testKey2`. -/
def testReg : Registry := ⟨"r+w", some ⟨testKey2⟩⟩

/-- A read-only registry. -/
def testRegRO : Registry := ⟨"r", none⟩

/-- The end-to-end scenario's input url, with path and query. -/
def scenarioDomain : String := "https://node.example.org/path?x=1"

/-- The hex shape named by the claim's wording ("rejects … non-hex
strings"): an optionally `0x`-prefixed string of hexadecimal digits.  This
definition follows the specification's words and exists to state C6; ICAP
`XE…` strings are not of this shape. -/
def specHexForm (s : String) : Bool :=
  (if JS.startsWith s "0x" then s.data.drop 2 else s.data).all JS.isHexDigit

/-! ## Helper lemmas -/

/-- Errors of `toPartyDetails` are UTF-8 decode errors, never validation
errors. -/
lemma toPartyDetails_error_not_validation (input : PartyInput) (e : RegError)
    (h : Registry.toPartyDetails input = Except.error e) : e.isValidation = false := by
  unfold Registry.toPartyDetails at h
  split at h
  · cases h; rfl
  · split at h
    · cases h; rfl
    · cases h

/-- Errors of the `getAllParties` loop are never validation errors. -/
lemma getAllPartiesAux_error_not_validation (L : Ledger) :
    ∀ (as' : List String) (e : RegError),
      (Registry.getAllPartiesAux L as').2 = Except.error e → e.isValidation = false := by
  intro as'
  induction as' with
  | nil => intro e h; cases h
  | cons a rest ih =>
    intro e h
    unfold Registry.getAllPartiesAux at h
    by_cases hz : (L.getPartyDetailsByAddress a).operatorAddress ≠ zeroAddress
    · rw [if_pos hz] at h
      rcases hd : Registry.toPartyDetails (partyInputByAddress a (L.getPartyDetailsByAddress a))
        with e' | pd
      · rw [hd] at h
        cases h
        exact toPartyDetails_error_not_validation _ _ hd
      · rw [hd] at h
        simp only at h
        rcases hr : (Registry.getAllPartiesAux L rest).2 with e'' | v
        · rw [hr] at h
          simp only [Except.map] at h
          cases h
          exact ih _ hr
        · rw [hr] at h
          simp only [Except.map] at h
          cases h
    · rw [if_neg hz] at h
      exact ih _ h

/-- A mode other than `"r+w"` fails the writability check. -/
lemma verifyWritable_ro {reg : Registry} (h : reg.mode ≠ "r+w") :
    reg.verifyWritable = Except.error RegError.notWritable := by
  simp [Registry.verifyWritable, h]

/-- Mode `"r+w"` passes the writability check. -/
lemma verifyWritable_rw {reg : Registry} (h : reg.mode = "r+w") :
    reg.verifyWritable = Except.ok () := by
  simp [Registry.verifyWritable, h]

/-- A valid private key yields its wallet. -/
lemma wallet_create_valid {k : String} (h : isValidPrivateKey k = true) :
    Wallet.create k = Except.ok ⟨k⟩ := by
  simp [Wallet.create, h]

/-! ## Claims -/

/-- C3: a facade whose mode is not `"r+w"` — as produced by constructing
with no signer, or with the empty (falsy) string — fails every write
operation (`setNode`, `setNodeRaw`, `deleteNode`, `deleteNodeRaw`,
`setParty`, `setPartyRaw`, `setPartyModules`, `setPartyModulesRaw`,
`deleteParty`, `deletePartyRaw`) with `NotWritable` and an empty contract
call trace, i.e. before any network interaction; constructing with
(nonempty, well-formed) key material yields a facade that passes the
writability check. -/
theorem C3_read_only_mode :
    (∀ reg : Registry, reg.mode ≠ "r+w" →
      ∀ (domain signer cc pid op : String) (roles sender receiver : List Nat),
        reg.setNode domain = ⟨[], Except.error RegError.notWritable⟩ ∧
        reg.setNodeRaw domain signer = ⟨[], Except.error RegError.notWritable⟩ ∧
        reg.deleteNode = ⟨[], Except.error RegError.notWritable⟩ ∧
        reg.deleteNodeRaw signer = ⟨[], Except.error RegError.notWritable⟩ ∧
        reg.setParty cc pid roles op = ⟨[], Except.error RegError.notWritable⟩ ∧
        reg.setPartyRaw cc pid roles op signer = ⟨[], Except.error RegError.notWritable⟩ ∧
        reg.setPartyModules sender receiver = ⟨[], Except.error RegError.notWritable⟩ ∧
        reg.setPartyModulesRaw sender receiver signer = ⟨[], Except.error RegError.notWritable⟩ ∧
        reg.deleteParty = ⟨[], Except.error RegError.notWritable⟩ ∧
        reg.deletePartyRaw signer = ⟨[], Except.error RegError.notWritable⟩) ∧
    Registry.new none = Except.ok ⟨"r", none⟩ ∧
    Registry.new (some "") = Except.ok ⟨"r", none⟩ ∧
    (∀ s reg, Registry.new (some s) = Except.ok reg → s ≠ "" →
      reg.verifyWritable = Except.ok ()) := by
  refine ⟨fun reg h domain signer cc pid op roles sender receiver => ?_, rfl, rfl, ?_⟩
  · have hw := verifyWritable_ro h
    exact ⟨by simp [Registry.setNode, hw], by simp [Registry.setNodeRaw, hw],
      by simp [Registry.deleteNode, hw], by simp [Registry.deleteNodeRaw, hw],
      by simp [Registry.setParty, hw], by simp [Registry.setPartyRaw, hw],
      by simp [Registry.setPartyModules, hw], by simp [Registry.setPartyModulesRaw, hw],
      by simp [Registry.deleteParty, hw], by simp [Registry.deletePartyRaw, hw]⟩
  · intro s reg hnew hs
    simp only [Registry.new] at hnew
    rw [if_pos hs] at hnew
    by_cases hk : isValidPrivateKey s = true
    · rw [if_pos hk] at hnew
      cases hnew
      rfl
    · rw [if_neg hk] at hnew
      cases hnew

/-- C3 witness: the read-only facade produced by a signerless constructor
fails a concrete write with `NotWritable` and no calls, and a facade
constructed with a valid key passes the writability check. -/
theorem C3_read_only_mode_witness :
    testRegRO.setNode "https://node.example.org" = ⟨[], Except.error RegError.notWritable⟩ ∧
    Registry.verifyWritable ⟨"r+w", some ⟨testKey⟩⟩ = Except.ok () := by
  constructor
  · exact ((C3_read_only_mode.1 testRegRO (by decide) "https://node.example.org" "" "" "" ""
      [] [] []).1)
  · exact C3_read_only_mode.2.2.2 testKey ⟨"r+w", some ⟨testKey⟩⟩ (by decide) (by decide)

/-- C7: `verifyStringLen` accepts exactly the strings of the required
UTF-16 length (in particular any bytes, alphabetic or not) and rejects all
others with the length error; `getPartyByOcpi`, `setParty` and
`setPartyRaw` apply it to `countryCode` (length 2) and `partyId`
(length 3), failing before any contract call. -/
theorem C7_verifyStringLen_exact :
    (∀ (s : String) (n : Nat), Registry.verifyStringLen s n = Except.ok () ↔ JS.jsLength s = n) ∧
    (∀ s n, JS.jsLength s ≠ n →
      Registry.verifyStringLen s n = Except.error (RegError.invalidStringLen n s)) ∧
    (∀ reg L cc pid, JS.jsLength cc ≠ 2 →
      Registry.getPartyByOcpi reg L cc pid =
        ⟨[], Except.error (RegError.invalidStringLen 2 cc)⟩) ∧
    (∀ reg L cc pid, JS.jsLength cc = 2 → JS.jsLength pid ≠ 3 →
      Registry.getPartyByOcpi reg L cc pid =
        ⟨[], Except.error (RegError.invalidStringLen 3 pid)⟩) ∧
    (∀ reg cc pid roles op, reg.mode = "r+w" → JS.jsLength cc ≠ 2 →
      Registry.setParty reg cc pid roles op =
        ⟨[], Except.error (RegError.invalidStringLen 2 cc)⟩) ∧
    (∀ reg cc pid roles op signer, reg.mode = "r+w" → JS.jsLength cc = 2 → JS.jsLength pid ≠ 3 →
      Registry.setPartyRaw reg cc pid roles op signer =
        ⟨[], Except.error (RegError.invalidStringLen 3 pid)⟩) := by
  refine ⟨?_, ?_, ?_, ?_, ?_, ?_⟩
  · intro s n
    unfold Registry.verifyStringLen
    by_cases h : JS.jsLength s = n <;> simp [h]
  · intro s n h
    simp [Registry.verifyStringLen, h]
  · intro reg L cc pid h
    simp [Registry.getPartyByOcpi, Registry.verifyStringLen, h]
  · intro reg L cc pid h1 h2
    simp [Registry.getPartyByOcpi, Registry.verifyStringLen, h1, h2]
  · intro reg cc pid roles op hm h
    simp [Registry.setParty, verifyWritable_rw hm, Registry.verifyStringLen, h]
  · intro reg cc pid roles op signer hm h1 h2
    simp [Registry.setPartyRaw, verifyWritable_rw hm, Registry.verifyStringLen, h1, h2]

/-- C7 witness: concrete length checks — a non-alphabetic string of the
right length is accepted, wrong lengths are rejected, and the party
operations propagate the rejection with no calls made. -/
theorem C7_verifyStringLen_exact_witness :
    Registry.verifyStringLen "1!" 2 = Except.ok () ∧
    Registry.verifyStringLen "abc" 2 = Except.error (RegError.invalidStringLen 2 "abc") ∧
    Registry.getPartyByOcpi testRegRO testLedger "abc" "XYZ" =
      ⟨[], Except.error (RegError.invalidStringLen 2 "abc")⟩ ∧
    Registry.getPartyByOcpi testRegRO testLedger "DE" "no" =
      ⟨[], Except.error (RegError.invalidStringLen 3 "no")⟩ ∧
    Registry.setParty testReg "DEU" "ABC" [0] zeroAddress =
      ⟨[], Except.error (RegError.invalidStringLen 2 "DEU")⟩ ∧
    Registry.setPartyRaw testReg "DE" "AB" [0] zeroAddress testKey =
      ⟨[], Except.error (RegError.invalidStringLen 3 "AB")⟩ := by
  refine ⟨?_, ?_, ?_, ?_, ?_, ?_⟩
  · exact (C7_verifyStringLen_exact.1 "1!" 2).mpr (by decide)
  · exact C7_verifyStringLen_exact.2.1 "abc" 2 (by decide)
  · exact C7_verifyStringLen_exact.2.2.1 testRegRO testLedger "abc" "XYZ" (by decide)
  · exact C7_verifyStringLen_exact.2.2.2.1 testRegRO testLedger "DE" "no" (by decide) (by decide)
  · exact C7_verifyStringLen_exact.2.2.2.2.1 testReg "DEU" "ABC" [0] zeroAddress rfl (by decide)
  · exact C7_verifyStringLen_exact.2.2.2.2.2 testReg "DE" "AB" [0] zeroAddress testKey rfl
      (by decide) (by decide)

/-- C10: `getPartyByAddress` performs no validation of its address
argument — for every input string it issues exactly the ledger query for
that string, and any error it raises is a translation error, never a
validation (`InvalidArgument`-family) error; by contrast `getNode` rejects
an address that fails `ethers` address validation before any call. -/
theorem C10_getPartyByAddress_no_validation :
    (∀ reg L a,
      (Registry.getPartyByAddress reg L a).calls = [ContractCall.getPartyDetailsByAddress a]) ∧
    (∀ reg L a e, (Registry.getPartyByAddress reg L a).result = Except.error e →
      e.isValidation = false) ∧
    (∀ reg L a m, Ethers.getAddress a = Except.error m →
      Registry.getNode reg L a = ⟨[], Except.error (RegError.invalidAddress a)⟩) := by
  refine ⟨?_, ?_, ?_⟩
  · intro reg L a
    simp only [Registry.getPartyByAddress]
    split <;> rfl
  · intro reg L a e h
    revert h
    simp only [Registry.getPartyByAddress]
    split
    · next e' he =>
      intro h
      cases h
      exact toPartyDetails_error_not_validation _ _ he
    · next pd hpd =>
      intro h
      exact Except.noConfusion h
  · intro reg L a m hm
    simp [Registry.getNode, Registry.verifyAddress, hm]

/-- C10 witness: a malformed address is forwarded to the party query
untouched (and the translation succeeds on the fixture), while `getNode`
rejects the same string before any call. -/
theorem C10_getPartyByAddress_no_validation_witness :
    (Registry.getPartyByAddress testRegRO testLedger "banana").calls =
      [ContractCall.getPartyDetailsByAddress "banana"] ∧
    (Registry.getPartyByAddress testRegRO testLedgerZeroBad "banana").result =
      Except.error (RegError.utf8Error "invalid prefix") ∧
    RegError.isValidation (RegError.utf8Error "invalid prefix") = false ∧
    Registry.getNode testRegRO testLedger "banana" =
      ⟨[], Except.error (RegError.invalidAddress "banana")⟩ := by
  refine ⟨C10_getPartyByAddress_no_validation.1 testRegRO testLedger "banana", by decide,
    C10_getPartyByAddress_no_validation.2.1 testRegRO testLedgerZeroBad "banana"
      (RegError.utf8Error "invalid prefix") (by decide),
    C10_getPartyByAddress_no_validation.2.2 testRegRO testLedger "banana" "invalid address"
      (by decide)⟩

/-- Errors of `getPartyByAddress` are never validation errors. -/
lemma getPartyByAddress_error_not_validation (reg : Registry) (L : Ledger) (a : String)
    (e : RegError) (h : (Registry.getPartyByAddress reg L a).result = Except.error e) :
    e.isValidation = false := by
  revert h
  simp only [Registry.getPartyByAddress]
  split
  · next e' he =>
    intro h
    cases h
    exact toPartyDetails_error_not_validation _ _ he
  · next pd hpd =>
    intro h
    exact Except.noConfusion h

/-- C5: validation failures (writability, string length, address validity)
are raised before any contract interaction — for every public operation of
the facade, an outcome carrying a validation error carries an empty call
trace, so no ledger read and no transaction submission was attempted. -/
theorem C5_validation_before_network :
    (∀ reg (L : Ledger) a calls e, Registry.getNode reg L a = ⟨calls, Except.error e⟩ →
      e.isValidation = true → calls = []) ∧
    (∀ reg (L : Ledger) calls e, Registry.getAllNodes reg L = ⟨calls, Except.error e⟩ →
      e.isValidation = true → calls = []) ∧
    (∀ reg (L : Ledger) a calls e, Registry.getPartyByAddress reg L a = ⟨calls, Except.error e⟩ →
      e.isValidation = true → calls = []) ∧
    (∀ reg (L : Ledger) cc pid calls e,
      Registry.getPartyByOcpi reg L cc pid = ⟨calls, Except.error e⟩ →
      e.isValidation = true → calls = []) ∧
    (∀ reg (L : Ledger) calls e, Registry.getAllParties reg L = ⟨calls, Except.error e⟩ →
      e.isValidation = true → calls = []) ∧
    (∀ reg domain calls e, Registry.setNode reg domain = ⟨calls, Except.error e⟩ →
      e.isValidation = true → calls = []) ∧
    (∀ reg domain signer calls e, Registry.setNodeRaw reg domain signer =
        ⟨calls, Except.error e⟩ →
      e.isValidation = true → calls = []) ∧
    (∀ reg calls e, Registry.deleteNode reg = ⟨calls, Except.error e⟩ →
      e.isValidation = true → calls = []) ∧
    (∀ reg signer calls e, Registry.deleteNodeRaw reg signer = ⟨calls, Except.error e⟩ →
      e.isValidation = true → calls = []) ∧
    (∀ reg cc pid roles op calls e, Registry.setParty reg cc pid roles op =
        ⟨calls, Except.error e⟩ →
      e.isValidation = true → calls = []) ∧
    (∀ reg cc pid roles op signer calls e,
      Registry.setPartyRaw reg cc pid roles op signer = ⟨calls, Except.error e⟩ →
      e.isValidation = true → calls = []) ∧
    (∀ reg sender receiver calls e, Registry.setPartyModules reg sender receiver =
        ⟨calls, Except.error e⟩ →
      e.isValidation = true → calls = []) ∧
    (∀ reg sender receiver signer calls e,
      Registry.setPartyModulesRaw reg sender receiver signer = ⟨calls, Except.error e⟩ →
      e.isValidation = true → calls = []) ∧
    (∀ reg calls e, Registry.deleteParty reg = ⟨calls, Except.error e⟩ →
      e.isValidation = true → calls = []) ∧
    (∀ reg signer calls e, Registry.deletePartyRaw reg signer = ⟨calls, Except.error e⟩ →
      e.isValidation = true → calls = []) := by
  refine ⟨?_, ?_, ?_, ?_, ?_, ?_, ?_, ?_, ?_, ?_, ?_, ?_, ?_, ?_, ?_⟩
  · intro reg L a calls e h hv
    simp only [Registry.getNode] at h
    repeat' split at h
    all_goals simp_all
  · intro reg L calls e h hv
    simp only [Registry.getAllNodes] at h
    simp_all
  · intro reg L a calls e h hv
    have hf := getPartyByAddress_error_not_validation reg L a e (by rw [h])
    simp [hf] at hv
  · intro reg L cc pid calls e h hv
    simp only [Registry.getPartyByOcpi] at h
    repeat' split at h
    all_goals try simp_all
    all_goals
      have hf := toPartyDetails_error_not_validation _ _ (by assumption)
    all_goals simp [hf] at hv
  · intro reg L calls e h hv
    have hr : (Registry.getAllParties reg L).result = Except.error e := by rw [h]
    simp only [Registry.getAllParties] at hr
    have hf := getAllPartiesAux_error_not_validation L L.getParties e hr
    simp [hf] at hv
  · intro reg domain calls e h hv
    simp only [Registry.setNode] at h
    repeat' split at h
    all_goals simp_all
  · intro reg domain signer calls e h hv
    simp only [Registry.setNodeRaw] at h
    repeat' split at h
    all_goals simp_all
  · intro reg calls e h hv
    simp only [Registry.deleteNode] at h
    repeat' split at h
    all_goals simp_all
  · intro reg signer calls e h hv
    simp only [Registry.deleteNodeRaw] at h
    repeat' split at h
    all_goals simp_all
  · intro reg cc pid roles op calls e h hv
    simp only [Registry.setParty] at h
    repeat' split at h
    all_goals simp_all
  · intro reg cc pid roles op signer calls e h hv
    simp only [Registry.setPartyRaw] at h
    repeat' split at h
    all_goals simp_all
  · intro reg sender receiver calls e h hv
    simp only [Registry.setPartyModules] at h
    repeat' split at h
    all_goals simp_all
  · intro reg sender receiver signer calls e h hv
    simp only [Registry.setPartyModulesRaw] at h
    repeat' split at h
    all_goals simp_all
  · intro reg calls e h hv
    simp only [Registry.deleteParty] at h
    repeat' split at h
    all_goals simp_all
  · intro reg signer calls e h hv
    simp only [Registry.deletePartyRaw] at h
    repeat' split at h
    all_goals simp_all

/-- C5 witness: concrete validation failures with empty call traces — a
read-only raw write, an over-length country code, and a malformed operator
address. -/
theorem C5_validation_before_network_witness :
    Registry.setPartyRaw testRegRO "DE" "ABC" [0] zeroAddress testKey =
      ⟨[], Except.error RegError.notWritable⟩ ∧
    ([] : List ContractCall) = [] ∧
    Registry.getPartyByOcpi testRegRO testLedger "DEU" "ABC" =
      ⟨[], Except.error (RegError.invalidStringLen 2 "DEU")⟩ ∧
    Registry.setParty testReg "DE" "ABC" [0] "0xnot-an-address" =
      ⟨[], Except.error (RegError.invalidAddress "0xnot-an-address")⟩ := by
  have h1 : Registry.setPartyRaw testRegRO "DE" "ABC" [0] zeroAddress testKey =
      ⟨[], Except.error RegError.notWritable⟩ := by decide
  have h3 : Registry.getPartyByOcpi testRegRO testLedger "DEU" "ABC" =
      ⟨[], Except.error (RegError.invalidStringLen 2 "DEU")⟩ := by decide
  have h4 : Registry.setParty testReg "DE" "ABC" [0] "0xnot-an-address" =
      ⟨[], Except.error (RegError.invalidAddress "0xnot-an-address")⟩ := by decide
  exact ⟨h1,
    C5_validation_before_network.2.2.2.2.2.2.2.2.2.2.1 testRegRO "DE" "ABC" [0] zeroAddress
      testKey [] RegError.notWritable h1 rfl,
    h3, h4⟩

/-- C1: for every operation kind and argument list, recovering from the
signature produced over the digest of the canonical encoding yields the
signer key's address (and a wrong claimed address fails with
`SignatureMismatch`); for every raw operation built by the facade
(`setNodeRaw`, `deleteNodeRaw`, `setPartyRaw`, `setPartyModulesRaw`,
`deletePartyRaw`) with a valid key, the verifier's recovered address over
that operation's digest equals the claimed signer address submitted as the
first contract argument. -/
theorem C1_sign_recover_roundtrip :
    (∀ (d : String) (w : Wallet), recover d (signDigest d w) = w.address) ∧
    (∀ (kind : OpKind) (args : List String) (k : String),
      recover (digestOf (encodeOp kind args))
        (signDigest (digestOf (encodeOp kind args)) ⟨k⟩) = addressOf k) ∧
    (∀ (d : String) (w : Wallet) (claimed : String), claimed ≠ w.address →
      recoverChecked d (signDigest d w) claimed = Except.error "SignatureMismatch") ∧
    (∀ reg : Registry, reg.mode = "r+w" → ∀ k, isValidPrivateKey k = true →
      ∀ (domain cc pid op country pidHex : String) (roles sender receiver : List Nat),
      JS.jsLength cc = 2 → JS.jsLength pid = 3 →
      Registry.verifyAddress op = Except.ok () →
      Registry.toHex cc = Except.ok country → Registry.toHex pid = Except.ok pidHex →
      ((Registry.setNodeRaw reg domain k).calls =
        [ContractCall.setNodeRaw (addressOf k) domain (Sign.setNodeRaw domain ⟨k⟩).v
          (Sign.setNodeRaw domain ⟨k⟩).r (Sign.setNodeRaw domain ⟨k⟩).s] ∧
        recover (digestOf (encodeOp .setNode [domain])) (Sign.setNodeRaw domain ⟨k⟩) =
          addressOf k) ∧
      ((Registry.deleteNodeRaw reg k).calls =
        [ContractCall.deleteNodeRaw (addressOf k) (Sign.deleteNodeRaw ⟨k⟩).v
          (Sign.deleteNodeRaw ⟨k⟩).r (Sign.deleteNodeRaw ⟨k⟩).s] ∧
        recover (digestOf (encodeOp .deleteNode [])) (Sign.deleteNodeRaw ⟨k⟩) = addressOf k) ∧
      ((Registry.setPartyRaw reg cc pid roles op k).calls =
        [ContractCall.setPartyRaw (addressOf k) country pidHex roles op
          (Sign.setPartyRaw country pidHex roles op ⟨k⟩).v
          (Sign.setPartyRaw country pidHex roles op ⟨k⟩).r
          (Sign.setPartyRaw country pidHex roles op ⟨k⟩).s] ∧
        recover
          (digestOf (encodeOp .setParty
            [country, pidHex, String.intercalate "," (roles.map toString), op]))
          (Sign.setPartyRaw country pidHex roles op ⟨k⟩) = addressOf k) ∧
      ((Registry.setPartyModulesRaw reg sender receiver k).calls =
        [ContractCall.setPartyModulesRaw (addressOf k) sender receiver
          (Sign.setPartyModulesRaw sender receiver ⟨k⟩).v
          (Sign.setPartyModulesRaw sender receiver ⟨k⟩).r
          (Sign.setPartyModulesRaw sender receiver ⟨k⟩).s] ∧
        recover
          (digestOf (encodeOp .setPartyModules
            [String.intercalate "," (sender.map toString),
             String.intercalate "," (receiver.map toString)]))
          (Sign.setPartyModulesRaw sender receiver ⟨k⟩) = addressOf k) ∧
      ((Registry.deletePartyRaw reg k).calls =
        [ContractCall.deletePartyRaw (addressOf k) (Sign.deletePartyRaw ⟨k⟩).v
          (Sign.deletePartyRaw ⟨k⟩).r (Sign.deletePartyRaw ⟨k⟩).s] ∧
        recover (digestOf (encodeOp .deleteParty [])) (Sign.deletePartyRaw ⟨k⟩) =
          addressOf k)) := by
  refine ⟨?_, ?_, ?_, ?_⟩
  · intro d w
    simp [recover, signDigest]
  · intro kind args k
    simp [recover, signDigest, Wallet.address]
  · intro d w claimed hne
    simp [recoverChecked, recover, signDigest, hne]
    intro h
    exact absurd h.symm hne
  · intro reg hm k hk domain cc pid op country pidHex roles sender receiver hcc hpid haddr hc hp
    have hw := verifyWritable_rw hm
    have hwal := wallet_create_valid hk
    refine ⟨⟨?_, ?_⟩, ⟨?_, ?_⟩, ⟨?_, ?_⟩, ⟨?_, ?_⟩, ⟨?_, ?_⟩⟩
    · simp [Registry.setNodeRaw, hw, hwal, Wallet.address]
    · simp [Sign.setNodeRaw, recover, signDigest, Wallet.address]
    · simp [Registry.deleteNodeRaw, hw, hwal, Wallet.address]
    · simp [Sign.deleteNodeRaw, recover, signDigest, Wallet.address]
    · simp [Registry.setPartyRaw, hw, hwal, Registry.verifyStringLen, hcc, hpid, haddr, hc, hp,
        Wallet.address]
    · simp [Sign.setPartyRaw, recover, signDigest, Wallet.address]
    · simp [Registry.setPartyModulesRaw, hw, hwal, Wallet.address]
    · simp [Sign.setPartyModulesRaw, recover, signDigest, Wallet.address]
    · simp [Registry.deletePartyRaw, hw, hwal, Wallet.address]
    · simp [Sign.deletePartyRaw, recover, signDigest, Wallet.address]

set_option maxRecDepth 1000000 in
/-- C1 witness: the `setNodeRaw` transaction built with a concrete key
carries that key's address as claimed signer, and recovery over the
operation digest returns it. -/
theorem C1_sign_recover_roundtrip_witness :
    (Registry.setNodeRaw testReg "https://node.example.org" testKey).calls =
      [ContractCall.setNodeRaw (addressOf testKey) "https://node.example.org"
        (Sign.setNodeRaw "https://node.example.org" ⟨testKey⟩).v
        (Sign.setNodeRaw "https://node.example.org" ⟨testKey⟩).r
        (Sign.setNodeRaw "https://node.example.org" ⟨testKey⟩).s] ∧
    recover (digestOf (encodeOp .setNode ["https://node.example.org"]))
      (Sign.setNodeRaw "https://node.example.org" ⟨testKey⟩) = addressOf testKey :=
  (C1_sign_recover_roundtrip.2.2.2 testReg rfl testKey (by decide)
    "https://node.example.org" "de" "abc" "0x9bC1169Ca09555bf2721A5C9eC6D69c8073bfeB4"
    "0x4445" "0x414243" [0] [1] [2] (by decide) (by decide) (by decide) (by decide)
    (by decide)).1

/-- C9: the claimed signer address submitted by each raw operation is the
address derived from the supplied signer key, never an address of the
facade's own wallet — the built transaction is identical for any two
writable facades, whatever wallets they hold, and its first argument is
`addressOf key`. -/
theorem C9_claimed_signer_is_supplied_key :
    ∀ (reg reg' : Registry), reg.mode = "r+w" → reg'.mode = "r+w" →
    ∀ k, isValidPrivateKey k = true →
    ∀ (domain cc pid op country pidHex : String) (roles sender receiver : List Nat),
      JS.jsLength cc = 2 → JS.jsLength pid = 3 →
      Registry.verifyAddress op = Except.ok () →
      Registry.toHex cc = Except.ok country → Registry.toHex pid = Except.ok pidHex →
      (Registry.setNodeRaw reg domain k = Registry.setNodeRaw reg' domain k ∧
        (Registry.setNodeRaw reg domain k).calls =
          [ContractCall.setNodeRaw (addressOf k) domain (Sign.setNodeRaw domain ⟨k⟩).v
            (Sign.setNodeRaw domain ⟨k⟩).r (Sign.setNodeRaw domain ⟨k⟩).s]) ∧
      (Registry.deleteNodeRaw reg k = Registry.deleteNodeRaw reg' k ∧
        (Registry.deleteNodeRaw reg k).calls =
          [ContractCall.deleteNodeRaw (addressOf k) (Sign.deleteNodeRaw ⟨k⟩).v
            (Sign.deleteNodeRaw ⟨k⟩).r (Sign.deleteNodeRaw ⟨k⟩).s]) ∧
      (Registry.setPartyRaw reg cc pid roles op k = Registry.setPartyRaw reg' cc pid roles op k ∧
        (Registry.setPartyRaw reg cc pid roles op k).calls =
          [ContractCall.setPartyRaw (addressOf k) country pidHex roles op
            (Sign.setPartyRaw country pidHex roles op ⟨k⟩).v
            (Sign.setPartyRaw country pidHex roles op ⟨k⟩).r
            (Sign.setPartyRaw country pidHex roles op ⟨k⟩).s]) ∧
      (Registry.setPartyModulesRaw reg sender receiver k =
          Registry.setPartyModulesRaw reg' sender receiver k ∧
        (Registry.setPartyModulesRaw reg sender receiver k).calls =
          [ContractCall.setPartyModulesRaw (addressOf k) sender receiver
            (Sign.setPartyModulesRaw sender receiver ⟨k⟩).v
            (Sign.setPartyModulesRaw sender receiver ⟨k⟩).r
            (Sign.setPartyModulesRaw sender receiver ⟨k⟩).s]) ∧
      (Registry.deletePartyRaw reg k = Registry.deletePartyRaw reg' k ∧
        (Registry.deletePartyRaw reg k).calls =
          [ContractCall.deletePartyRaw (addressOf k) (Sign.deletePartyRaw ⟨k⟩).v
            (Sign.deletePartyRaw ⟨k⟩).r (Sign.deletePartyRaw ⟨k⟩).s]) := by
  intro reg reg' hm hm' k hk domain cc pid op country pidHex roles sender receiver
    hcc hpid haddr hc hp
  have hw := verifyWritable_rw hm
  have hw' := verifyWritable_rw hm'
  have hwal := wallet_create_valid hk
  refine ⟨⟨?_, ?_⟩, ⟨?_, ?_⟩, ⟨?_, ?_⟩, ⟨?_, ?_⟩, ⟨?_, ?_⟩⟩
  · simp [Registry.setNodeRaw, hw, hw', hwal]
  · simp [Registry.setNodeRaw, hw, hwal, Wallet.address]
  · simp [Registry.deleteNodeRaw, hw, hw', hwal]
  · simp [Registry.deleteNodeRaw, hw, hwal, Wallet.address]
  · simp [Registry.setPartyRaw, hw, hw', hwal, Registry.verifyStringLen, hcc, hpid, haddr,
      hc, hp]
  · simp [Registry.setPartyRaw, hw, hwal, Registry.verifyStringLen, hcc, hpid, haddr, hc, hp,
      Wallet.address]
  · simp [Registry.setPartyModulesRaw, hw, hw', hwal]
  · simp [Registry.setPartyModulesRaw, hw, hwal, Wallet.address]
  · simp [Registry.deletePartyRaw, hw, hw', hwal]
  · simp [Registry.deletePartyRaw, hw, hwal, Wallet.address]

set_option maxRecDepth 1000000 in
/-- C9 witness: two writable facades holding different wallets build the
same `deletePartyRaw` transaction from the same supplied key, whose claimed
signer is that key's address. -/
theorem C9_claimed_signer_is_supplied_key_witness :
    Registry.deletePartyRaw ⟨"r+w", some ⟨testKey2⟩⟩ testKey =
      Registry.deletePartyRaw ⟨"r+w", some ⟨testKey⟩⟩ testKey ∧
    (Registry.deletePartyRaw ⟨"r+w", some ⟨testKey2⟩⟩ testKey).calls =
      [ContractCall.deletePartyRaw (addressOf testKey) (Sign.deletePartyRaw ⟨testKey⟩).v
        (Sign.deletePartyRaw ⟨testKey⟩).r (Sign.deletePartyRaw ⟨testKey⟩).s] :=
  (C9_claimed_signer_is_supplied_key ⟨"r+w", some ⟨testKey2⟩⟩ ⟨"r+w", some ⟨testKey⟩⟩ rfl rfl
    testKey (by decide) "https://node.example.org" "de" "abc"
    "0x9bC1169Ca09555bf2721A5C9eC6D69c8073bfeB4" "0x4445" "0x414243" [0] [1] [2]
    (by decide) (by decide) (by decide) (by decide) (by decide)).2.2.2.2

/-- C8: `Registry.toHex` upper-cases its argument before handing it to the
web3 hex encoder, so the hex payloads and contract arguments produced by
`getPartyByOcpi`, `setParty` and `setPartyRaw` encode the upper-cased
identifiers (e.g. `"de"` is encoded as `"DE"`, i.e. `"0x4445"`). -/
theorem C8_uppercase_before_encoding :
    (∀ s h', Web3.toHex (JS.toUpper s) = Except.ok h' → Registry.toHex s = Except.ok h') ∧
    Registry.toHex "de" = Except.ok "0x4445" ∧
    Web3.utf8ToHex "DE" = "0x4445" ∧
    (∀ reg (L : Ledger) cc pid country pidHex,
      JS.jsLength cc = 2 → JS.jsLength pid = 3 →
      Registry.toHex cc = Except.ok country → Registry.toHex pid = Except.ok pidHex →
      (Registry.getPartyByOcpi reg L cc pid).calls =
        [ContractCall.getPartyDetailsByOcpi country pidHex]) ∧
    (∀ reg cc pid roles op country pidHex, reg.mode = "r+w" →
      JS.jsLength cc = 2 → JS.jsLength pid = 3 →
      Registry.verifyAddress op = Except.ok () →
      Registry.toHex cc = Except.ok country → Registry.toHex pid = Except.ok pidHex →
      Registry.setParty reg cc pid roles op =
        ⟨[ContractCall.setParty country pidHex roles op], Except.ok ()⟩) ∧
    (∀ reg cc pid roles op signer country pidHex, reg.mode = "r+w" →
      isValidPrivateKey signer = true →
      JS.jsLength cc = 2 → JS.jsLength pid = 3 →
      Registry.verifyAddress op = Except.ok () →
      Registry.toHex cc = Except.ok country → Registry.toHex pid = Except.ok pidHex →
      (Registry.setPartyRaw reg cc pid roles op signer).calls =
        [ContractCall.setPartyRaw (addressOf signer) country pidHex roles op
          (Sign.setPartyRaw country pidHex roles op ⟨signer⟩).v
          (Sign.setPartyRaw country pidHex roles op ⟨signer⟩).r
          (Sign.setPartyRaw country pidHex roles op ⟨signer⟩).s]) := by
  refine ⟨?_, by decide, by decide, ?_, ?_, ?_⟩
  · intro s h' hw
    simp [Registry.toHex, hw]
  · intro reg L cc pid country pidHex hcc hpid hc hp
    simp only [Registry.getPartyByOcpi, Registry.verifyStringLen, hcc, hpid, hc, hp]
    norm_num
    split <;> rfl
  · intro reg cc pid roles op country pidHex hm hcc hpid haddr hc hp
    simp [Registry.setParty, verifyWritable_rw hm, Registry.verifyStringLen, hcc, hpid,
      haddr, hc, hp]
  · intro reg cc pid roles op signer country pidHex hm hk hcc hpid haddr hc hp
    simp [Registry.setPartyRaw, verifyWritable_rw hm, wallet_create_valid hk,
      Registry.verifyStringLen, hcc, hpid, haddr, hc, hp, Wallet.address]

set_option maxRecDepth 1000000 in
/-- C8 witness: concrete lowercase identifiers are upper-cased and
hex-encoded in the built `setParty` transaction. -/
theorem C8_uppercase_before_encoding_witness :
    Registry.toHex "de" = Except.ok "0x4445" ∧
    Registry.setParty testReg "de" "abc" [0] "0x9bC1169Ca09555bf2721A5C9eC6D69c8073bfeB4" =
      ⟨[ContractCall.setParty "0x4445" "0x414243" [0]
        "0x9bC1169Ca09555bf2721A5C9eC6D69c8073bfeB4"], Except.ok ()⟩ :=
  ⟨C8_uppercase_before_encoding.2.1,
    C8_uppercase_before_encoding.2.2.2.2.1 testReg "de" "abc" [0]
      "0x9bC1169Ca09555bf2721A5C9eC6D69c8073bfeB4" "0x4445" "0x414243" rfl (by decide)
      (by decide) (by decide) (by decide) (by decide)⟩


/-- C2 counterexample: the claim fails on the code — `setNodeRaw` signs and
submits the input url exactly as given, not its normalized origin.  At the
scenario input the built transaction's url argument is the full string with
path and query, the signed payload encodes that full string, and both
differ from the origin `https://node.example.org` (which the parser does
compute for this input). -/
theorem C2_origin_counterexample :
    (Registry.setNodeRaw testReg scenarioDomain testKey).calls =
      [ContractCall.setNodeRaw (addressOf testKey) scenarioDomain
        (Sign.setNodeRaw scenarioDomain ⟨testKey⟩).v
        (Sign.setNodeRaw scenarioDomain ⟨testKey⟩).r
        (Sign.setNodeRaw scenarioDomain ⟨testKey⟩).s] ∧
    (Sign.setNodeRaw scenarioDomain ⟨testKey⟩).r =
      digestOf (encodeOp .setNode [scenarioDomain]) ∧
    JSURL.origin scenarioDomain = some "https://node.example.org" ∧
    scenarioDomain ≠ "https://node.example.org" ∧
    encodeOp .setNode [scenarioDomain] ≠ encodeOp .setNode ["https://node.example.org"] := by
  refine ⟨rfl, rfl, by decide, by decide, by decide⟩

/-- C2 amended: the direct `setNode` operation normalizes its url argument
to the parsed origin (discarding path and query) before submission, but
`setNodeRaw` signs and submits the domain string verbatim, without
normalization. -/
theorem C2_origin_amended :
    (∀ reg domain o, reg.mode = "r+w" → JSURL.origin domain = some o →
      Registry.setNode reg domain = ⟨[ContractCall.setNode o], Except.ok ()⟩) ∧
    (∀ reg domain k, reg.mode = "r+w" → isValidPrivateKey k = true →
      (Registry.setNodeRaw reg domain k).calls =
        [ContractCall.setNodeRaw (addressOf k) domain (Sign.setNodeRaw domain ⟨k⟩).v
          (Sign.setNodeRaw domain ⟨k⟩).r (Sign.setNodeRaw domain ⟨k⟩).s] ∧
      (Sign.setNodeRaw domain ⟨k⟩).r = digestOf (encodeOp .setNode [domain])) := by
  constructor
  · intro reg domain o hm ho
    simp [Registry.setNode, verifyWritable_rw hm, ho]
  · intro reg domain k hm hk
    exact ⟨by simp [Registry.setNodeRaw, verifyWritable_rw hm, wallet_create_valid hk,
      Wallet.address], rfl⟩

/-- C2 witness: at the scenario input, `setNode` submits the origin while
`setNodeRaw` submits the full url (with path and query) unchanged. -/
theorem C2_origin_amended_witness :
    Registry.setNode testReg scenarioDomain =
      ⟨[ContractCall.setNode "https://node.example.org"], Except.ok ()⟩ ∧
    (Registry.setNodeRaw testReg scenarioDomain testKey).calls =
      [ContractCall.setNodeRaw (addressOf testKey) scenarioDomain
        (Sign.setNodeRaw scenarioDomain ⟨testKey⟩).v
        (Sign.setNodeRaw scenarioDomain ⟨testKey⟩).r
        (Sign.setNodeRaw scenarioDomain ⟨testKey⟩).s] :=
  ⟨C2_origin_amended.1 testReg scenarioDomain "https://node.example.org" rfl (by decide),
    (C2_origin_amended.2 testReg scenarioDomain testKey rfl (by decide)).1⟩

/-- Translation preserves the operator address field. -/
lemma toPartyDetails_ok_operator (input : PartyInput) (pd : PartyDetails)
    (h : Registry.toPartyDetails input = Except.ok pd) :
    pd.node.operator = input.operatorAddress := by
  unfold Registry.toPartyDetails at h
  split at h
  · cases h
  · split at h
    · cases h
    · cases h
      rfl

/-- Every party returned by the `getAllParties` loop has a nonzero
operator (the loop checks the raw response before translating). -/
lemma getAllPartiesAux_members (L : Ledger) :
    ∀ (as' : List String) (l : List PartyDetails),
      (Registry.getAllPartiesAux L as').2 = Except.ok l →
      ∀ pd ∈ l, pd.node.operator ≠ zeroAddress := by
  intro as'
  induction as' with
  | nil =>
    intro l h pd hpd
    cases h
    cases hpd
  | cons a rest ih =>
    intro l h pd hpd
    unfold Registry.getAllPartiesAux at h
    by_cases hz : (L.getPartyDetailsByAddress a).operatorAddress ≠ zeroAddress
    · rw [if_pos hz] at h
      rcases hd : Registry.toPartyDetails (partyInputByAddress a (L.getPartyDetailsByAddress a))
        with e' | pd0
      · rw [hd] at h
        cases h
      · rw [hd] at h
        simp only at h
        rcases hr : (Registry.getAllPartiesAux L rest).2 with e'' | l'
        · rw [hr] at h
          simp only [Except.map] at h
          cases h
        · rw [hr] at h
          simp only [Except.map] at h
          cases h
          rcases List.mem_cons.mp hpd with rfl | hmem
          · rw [toPartyDetails_ok_operator _ _ hd]
            exact hz
          · exact ih l' hr pd hmem
    · rw [if_neg hz] at h
      exact ih l h pd hpd

/-- C4 counterexample: the claim fails on the code — for a ledger response
with the zero-address sentinel, `getPartyByAddress` does not return "not
found" regardless of the other populated fields: translation runs before
the zero check, so a response whose `countryCode` bytes are not valid UTF-8
raises a decode error instead of returning `undefined`. -/
theorem C4_zero_address_counterexample :
    Registry.getPartyByAddress testRegRO testLedgerZeroBad
        "0x0123456789012345678901234567890123456789" =
      ⟨[ContractCall.getPartyDetailsByAddress "0x0123456789012345678901234567890123456789"],
        Except.error (RegError.utf8Error "invalid prefix")⟩ ∧
    (testLedgerZeroBad.getPartyDetailsByAddress
        "0x0123456789012345678901234567890123456789").operatorAddress = zeroAddress ∧
    (Registry.getPartyByAddress testRegRO testLedgerZeroBad
        "0x0123456789012345678901234567890123456789").result ≠
      Except.ok (none : Option PartyDetails) := by
  refine ⟨by decide, by decide, by decide⟩

/-- C4 amended: provided the response's identifier fields decode as UTF-8
(translation precedes the zero check and its failure aborts the call),
`getPartyByAddress` and `getPartyByOcpi` return `undefined` exactly when
the response's `operatorAddress` is the all-zero sentinel and the
translated `PartyDetails` otherwise; `getAllParties` checks the raw
operator before translating, and every entry it returns has a nonzero
operator. -/
theorem C4_zero_address_amended :
    (∀ reg (L : Ledger) a pd,
      Registry.toPartyDetails (partyInputByAddress a (L.getPartyDetailsByAddress a)) =
        Except.ok pd →
      Registry.getPartyByAddress reg L a =
        ⟨[ContractCall.getPartyDetailsByAddress a],
          Except.ok (if (L.getPartyDetailsByAddress a).operatorAddress ≠ zeroAddress
            then some pd else none)⟩) ∧
    (∀ reg (L : Ledger) cc pid country pidHex pd,
      JS.jsLength cc = 2 → JS.jsLength pid = 3 →
      Registry.toHex cc = Except.ok country → Registry.toHex pid = Except.ok pidHex →
      Registry.toPartyDetails
          (partyInputByOcpi country pidHex (L.getPartyDetailsByOcpi country pidHex)) =
        Except.ok pd →
      Registry.getPartyByOcpi reg L cc pid =
        ⟨[ContractCall.getPartyDetailsByOcpi country pidHex],
          Except.ok (if (L.getPartyDetailsByOcpi country pidHex).operatorAddress ≠ zeroAddress
            then some pd else none)⟩) ∧
    (∀ reg (L : Ledger) l, (Registry.getAllParties reg L).result = Except.ok l →
      ∀ pd ∈ l, pd.node.operator ≠ zeroAddress) := by
  refine ⟨?_, ?_, ?_⟩
  · intro reg L a pd hok
    have hop := toPartyDetails_ok_operator _ _ hok
    simp only [partyInputByAddress] at hop
    simp only [Registry.getPartyByAddress, hok, hop]
  · intro reg L cc pid country pidHex pd hcc hpid hc hp hok
    have hop := toPartyDetails_ok_operator _ _ hok
    simp only [partyInputByOcpi] at hop
    simp only [Registry.getPartyByOcpi, Registry.verifyStringLen, hcc, hpid, hc, hp]
    norm_num
    simp only [hok, hop]
  · intro reg L l h
    simp only [Registry.getAllParties] at h
    exact getAllPartiesAux_members L L.getParties l h

/-- C4 witness: a decodable zero-operator response yields "not found", a
decodable nonzero response yields the translated details. -/
theorem C4_zero_address_amended_witness :
    Registry.getPartyByAddress testRegRO testLedgerZero
        "0x0123456789012345678901234567890123456789" =
      ⟨[ContractCall.getPartyDetailsByAddress "0x0123456789012345678901234567890123456789"],
        Except.ok none⟩ ∧
    Registry.getPartyByAddress testRegRO testLedger
        "0x0123456789012345678901234567890123456789" =
      ⟨[ContractCall.getPartyDetailsByAddress "0x0123456789012345678901234567890123456789"],
        Except.ok (some
          { countryCode := "DE", partyId := "ABC",
            address := "0x0123456789012345678901234567890123456789",
            roles := [some "CPO"],
            modules := { sender := [some "chargingprofiles"], receiver := [some "commands"] },
            node := { operator := "0x9bC1169Ca09555bf2721A5C9eC6D69c8073bfeB4",
                      url := "https://node.ocn.org" } })⟩ := by
  constructor
  · have h := C4_zero_address_amended.1 testRegRO testLedgerZero
      "0x0123456789012345678901234567890123456789"
      { countryCode := "DE", partyId := "ABC",
        address := "0x0123456789012345678901234567890123456789",
        roles := [some "CPO"],
        modules := { sender := [some "chargingprofiles"], receiver := [some "commands"] },
        node := { operator := zeroAddress, url := "" } } (by decide)
    rw [h]
    decide
  · have h := C4_zero_address_amended.1 testRegRO testLedger
      "0x0123456789012345678901234567890123456789"
      { countryCode := "DE", partyId := "ABC",
        address := "0x0123456789012345678901234567890123456789",
        roles := [some "CPO"],
        modules := { sender := [some "chargingprofiles"], receiver := [some "commands"] },
        node := { operator := "0x9bC1169Ca09555bf2721A5C9eC6D69c8073bfeB4",
                  url := "https://node.ocn.org" } } (by decide)
    rw [h]
    decide

/-- C6 counterexample: the claim fails on the code — `verifyAddress` also
accepts ICAP (`XE…`) representations, which are not hex strings; and the
facade's `getPartyByAddress` accepts (forwards) an arbitrary malformed
address without raising the validation error, even though `verifyAddress`
rejects it. -/
theorem C6_verifyAddress_counterexample :
    Registry.verifyAddress "XE93I6Z7INF5LSILPW5WW2Q1IXSU7YMZQGK" = Except.ok () ∧
    specHexForm "XE93I6Z7INF5LSILPW5WW2Q1IXSU7YMZQGK" = false ∧
    Registry.verifyAddress "banana" = Except.error (RegError.invalidAddress "banana") ∧
    (Registry.getPartyByAddress testRegRO testLedger "banana").calls =
      [ContractCall.getPartyDetailsByAddress "banana"] ∧
    (Registry.getPartyByAddress testRegRO testLedger "banana").result ≠
      Except.error (RegError.invalidAddress "banana") := by
  refine ⟨by decide, by decide, by decide, by decide, by decide⟩

/-- Digits produced by `Nat.digitChar` below 16 are hex digits. -/
lemma digitChar_isHexDigit {m : Nat} (h : m < 16) :
    JS.isHexDigit (Nat.digitChar m) = true := by
  interval_cases m <;> decide

/-- Every character `Nat.toDigitsCore` emits in base 16 is a hex digit. -/
lemma toDigitsCore_isHexDigit (f : Nat) : ∀ (n : Nat) (ds : List Char),
    (∀ c ∈ ds, JS.isHexDigit c = true) →
    ∀ c ∈ Nat.toDigitsCore 16 f n ds, JS.isHexDigit c = true := by
  induction f with
  | zero =>
    intro n ds h c hc
    exact h c hc
  | succ f ih =>
    intro n ds h c hc
    simp only [Nat.toDigitsCore] at hc
    split at hc
    · rcases List.mem_cons.mp hc with rfl | hmem
      · exact digitChar_isHexDigit (Nat.mod_lt n (by norm_num))
      · exact h c hmem
    · refine ih (n / 16) (Nat.digitChar (n % 16) :: ds) ?_ c hc
      intro c' hc'
      rcases List.mem_cons.mp hc' with rfl | hmem
      · exact digitChar_isHexDigit (Nat.mod_lt n (by norm_num))
      · exact h c' hmem

/-- The hex rendering of a number consists of hex digits. -/
lemma natToHexChars_isHexDigit (n : Nat) :
    ∀ c ∈ Ethers.natToHexChars n, JS.isHexDigit c = true := by
  intro c hc
  exact toDigitsCore_isHexDigit (n + 1) n [] (by intro c' hc'; cases hc') c hc

/-- A 40-hex-digit string passes the `getChecksumAddress` guard once
`0x`-normalised. -/
lemma isChecksumCandidate_with0x {s : String} (h : Ethers.isHex40 s = true) :
    Ethers.isChecksumCandidate (Ethers.with0x s) = true := by
  unfold Ethers.isHex40 at h
  unfold Ethers.with0x
  by_cases hp : JS.startsWith s "0x" = true
  · rw [if_pos hp] at h ⊢
    have hpre : ['0', 'x'].isPrefixOf s.data = true := hp
    rcases List.isPrefixOf_iff_prefix.mp hpre with ⟨t, ht⟩
    rw [← ht] at h
    unfold Ethers.isChecksumCandidate
    rw [← ht]
    simp only [List.cons_append, List.nil_append] at h ⊢
    simpa using h
  · rw [if_neg hp] at h
    rw [if_neg hp]
    rcases s with ⟨d⟩
    show Ethers.isChecksumCandidate ⟨'0' :: 'x' :: d⟩ = true
    simpa [Ethers.isChecksumCandidate] using h

/-- C6 amended: `verifyAddress` accepts exactly the optionally
`0x`-prefixed 40-hex-digit strings that are uniform-case or that match
their EIP-55 checksum rendering, and additionally ICAP `XE…` strings whose
IBAN check digits are valid and whose base-36 payload fits in 20 bytes
(beyond that, `getChecksumAddress`'s guard raises `invalid address`);
truncated, over-length and otherwise malformed strings are rejected with
the address error.  `setParty` and `setPartyRaw` (like `getNode`) validate
their address argument with it before any call; `getPartyByAddress`
forwards its argument unvalidated. -/
theorem C6_verifyAddress_amended :
    (∀ s, Ethers.isHex40 s = false → Ethers.isIcapForm s = false →
      Registry.verifyAddress s = Except.error (RegError.invalidAddress s)) ∧
    (∀ s, Ethers.isHex40 s = true → Ethers.mixedCaseHex (Ethers.with0x s) = false →
      Registry.verifyAddress s = Except.ok ()) ∧
    (∀ s, Ethers.isHex40 s = true →
      Ethers.getChecksumAddress (Ethers.with0x s) = Except.ok (Ethers.with0x s) →
      Registry.verifyAddress s = Except.ok ()) ∧
    (∀ s c, Ethers.isHex40 s = true → Ethers.mixedCaseHex (Ethers.with0x s) = true →
      Ethers.getChecksumAddress (Ethers.with0x s) = Except.ok c → c ≠ Ethers.with0x s →
      Registry.verifyAddress s = Except.error (RegError.invalidAddress s)) ∧
    (∀ s, Ethers.isHex40 s = false → Ethers.isIcapForm s = true →
      String.mk ((s.data.drop 2).take 2) = Ethers.ibanChecksum s →
      (Ethers.icapHexOf s).length ≤ 40 →
      Registry.verifyAddress s = Except.ok ()) ∧
    (∀ s, Ethers.isHex40 s = false → Ethers.isIcapForm s = true →
      String.mk ((s.data.drop 2).take 2) = Ethers.ibanChecksum s →
      (Ethers.icapHexOf s).length > 40 →
      Registry.verifyAddress s = Except.error (RegError.invalidAddress s)) ∧
    (∀ s, Ethers.isHex40 s = false → Ethers.isIcapForm s = true →
      String.mk ((s.data.drop 2).take 2) ≠ Ethers.ibanChecksum s →
      Registry.verifyAddress s = Except.error (RegError.invalidAddress s)) ∧
    (∀ reg cc pid roles op signer m, reg.mode = "r+w" →
      JS.jsLength cc = 2 → JS.jsLength pid = 3 → Ethers.getAddress op = Except.error m →
      Registry.setParty reg cc pid roles op =
          ⟨[], Except.error (RegError.invalidAddress op)⟩ ∧
        Registry.setPartyRaw reg cc pid roles op signer =
          ⟨[], Except.error (RegError.invalidAddress op)⟩) ∧
    (∀ reg (L : Ledger) a,
      (Registry.getPartyByAddress reg L a).calls =
        [ContractCall.getPartyDetailsByAddress a]) := by
  refine ⟨?_, ?_, ?_, ?_, ?_, ?_, ?_, ?_, ?_⟩
  · intro s h1 h2
    simp [Registry.verifyAddress, Ethers.getAddress, h1, h2]
  · intro s h1 hmix
    have hc := isChecksumCandidate_with0x h1
    simp [Registry.verifyAddress, Ethers.getAddress, h1, Ethers.getChecksumAddress, hc, hmix]
  · intro s h1 hcs
    simp [Registry.verifyAddress, Ethers.getAddress, h1, hcs]
  · intro s c h1 hmix hcs hne
    simp [Registry.verifyAddress, Ethers.getAddress, h1, hcs, hmix, hne]
  · intro s h1 h2 hchk hlen
    have hlen40 : (List.replicate (40 - (Ethers.icapHexOf s).length) '0' ++
        Ethers.icapHexOf s).length = 40 := by
      simp [List.length_append, Nat.sub_add_cancel hlen]
    have hhex : (List.replicate (40 - (Ethers.icapHexOf s).length) '0' ++
        Ethers.icapHexOf s).all JS.isHexDigit = true := by
      simp only [List.all_append, Bool.and_eq_true, List.all_eq_true]
      constructor
      · intro c hc
        rcases List.eq_of_mem_replicate hc with rfl
        decide
      · intro c hc
        exact natToHexChars_isHexDigit _ c hc
    have hcand : Ethers.isChecksumCandidate
        ("0x" ++ String.mk
          (List.replicate (40 - (Ethers.icapHexOf s).length) '0' ++ Ethers.icapHexOf s)) =
        true := by
      show Ethers.isChecksumCandidate
        ⟨'0' :: 'x' ::
          (List.replicate (40 - (Ethers.icapHexOf s).length) '0' ++ Ethers.icapHexOf s)⟩ = true
      simp [Ethers.isChecksumCandidate, hlen40, hhex]
    simp [Registry.verifyAddress, Ethers.getAddress, h1, h2, hchk,
      Ethers.getChecksumAddress, hcand]
  · intro s h1 h2 hchk hlen
    have h0 : 40 - (Ethers.icapHexOf s).length = 0 := Nat.sub_eq_zero_of_le (le_of_lt hlen)
    have hcand : Ethers.isChecksumCandidate
        ("0x" ++ String.mk
          (List.replicate (40 - (Ethers.icapHexOf s).length) '0' ++ Ethers.icapHexOf s)) =
        false := by
      show Ethers.isChecksumCandidate
        ⟨'0' :: 'x' ::
          (List.replicate (40 - (Ethers.icapHexOf s).length) '0' ++ Ethers.icapHexOf s)⟩ =
        false
      rw [h0]
      simp [Ethers.isChecksumCandidate, List.replicate, Nat.ne_of_gt hlen]
    simp [Registry.verifyAddress, Ethers.getAddress, h1, h2, hchk,
      Ethers.getChecksumAddress, hcand]
  · intro s h1 h2 hchk
    simp [Registry.verifyAddress, Ethers.getAddress, h1, h2, hchk]
  · intro reg cc pid roles op signer m hm hcc hpid herr
    have haddr : Registry.verifyAddress op = Except.error (RegError.invalidAddress op) := by
      simp [Registry.verifyAddress, herr]
    exact ⟨by simp [Registry.setParty, verifyWritable_rw hm, Registry.verifyStringLen, hcc,
        hpid, haddr],
      by simp [Registry.setPartyRaw, verifyWritable_rw hm, Registry.verifyStringLen, hcc,
        hpid, haddr]⟩
  · intro reg L a
    simp only [Registry.getPartyByAddress]
    split <;> rfl

set_option maxRecDepth 1000000 in
/-- C6 witness: concrete instances of each acceptance and rejection mode —
truncated and over-length strings rejected, an all-lowercase body and a
checksummed body accepted, a checksum violation rejected, a valid ICAP
within capacity accepted, a valid-check-digit ICAP beyond 20 bytes
rejected, and a malformed operator rejected by `setParty` before any
call. -/
theorem C6_verifyAddress_amended_witness :
    Registry.verifyAddress "0x1234" = Except.error (RegError.invalidAddress "0x1234") ∧
    Registry.verifyAddress "0x9bc1169ca09555bf2721a5c9ec6d69c8073bfeb44" =
      Except.error (RegError.invalidAddress "0x9bc1169ca09555bf2721a5c9ec6d69c8073bfeb44") ∧
    Registry.verifyAddress "0x9bc1169ca09555bf2721a5c9ec6d69c8073bfeb4" = Except.ok () ∧
    Registry.verifyAddress "0x9bC1169Ca09555bf2721A5C9eC6D69c8073bfeB4" = Except.ok () ∧
    Registry.verifyAddress "0x9BC1169Ca09555bf2721A5C9eC6D69c8073bfeB4" =
      Except.error (RegError.invalidAddress "0x9BC1169Ca09555bf2721A5C9eC6D69c8073bfeB4") ∧
    Registry.verifyAddress "XE93I6Z7INF5LSILPW5WW2Q1IXSU7YMZQGK" = Except.ok () ∧
    Registry.verifyAddress "XE54ZZZZZZZZZZZZZZZZZZZZZZZZZZZZZZZ" =
      Except.error (RegError.invalidAddress "XE54ZZZZZZZZZZZZZZZZZZZZZZZZZZZZZZZ") ∧
    Registry.setParty testReg "DE" "ABC" [0] "banana" =
      ⟨[], Except.error (RegError.invalidAddress "banana")⟩ := by
  refine ⟨?_, ?_, ?_, ?_, ?_, ?_, ?_, ?_⟩
  · exact C6_verifyAddress_amended.1 "0x1234" (by decide) (by decide)
  · exact C6_verifyAddress_amended.1 "0x9bc1169ca09555bf2721a5c9ec6d69c8073bfeb44"
      (by decide) (by decide)
  · exact C6_verifyAddress_amended.2.1 "0x9bc1169ca09555bf2721a5c9ec6d69c8073bfeb4"
      (by decide) (by decide)
  · exact C6_verifyAddress_amended.2.2.1 "0x9bC1169Ca09555bf2721A5C9eC6D69c8073bfeB4"
      (by decide) (by decide)
  · exact C6_verifyAddress_amended.2.2.2.1 "0x9BC1169Ca09555bf2721A5C9eC6D69c8073bfeB4"
      "0x9bC1169Ca09555bf2721A5C9eC6D69c8073bfeB4" (by decide) (by decide) (by decide)
      (by decide)
  · exact C6_verifyAddress_amended.2.2.2.2.1 "XE93I6Z7INF5LSILPW5WW2Q1IXSU7YMZQGK"
      (by decide) (by decide) (by decide) (by decide)
  · exact C6_verifyAddress_amended.2.2.2.2.2.1 "XE54ZZZZZZZZZZZZZZZZZZZZZZZZZZZZZZZ"
      (by decide) (by decide) (by decide) (by decide)
  · exact (C6_verifyAddress_amended.2.2.2.2.2.2.2.1 testReg "DE" "ABC" [0] "banana" testKey
      "invalid address" rfl (by decide) (by decide) (by decide)).1
